import Mathlib

/-! # Life automaton: the grid core, the camera and the frame loop of `src/main.c`

A shallow embedding of the grid operations of `src/main.c` and theorems about
them.

Modelling conventions.

* A `bool *` buffer is a `List Bool`; `buf[i]` with an `int` index `i` is a
  read (`rd`) or a write (`wr`) that fails (`none`) when `i` is negative or
  not below the length of the buffer.  Every operation that touches a buffer
  therefore returns an `Option`, and `none` stands for an access outside the
  allocated block.
* `int` values are `Int` and the `size_t` counter is a `Nat`, without
  wrap-around: every index formed for an in-range cell is below `W * H`, the
  number of cells of an allocated buffer, and the counter never exceeds the
  number of cells.
* A `for (int i = 0; i < bound; i++)` loop is `forLoop bound body`; the bound is
  read when the loop is entered, and no loop body changes `width` or `height`.
* The `float` values of the camera are exact rationals; the model of the camera
  is that of the code for a nonzero zoom and for world coordinates in the range
  of `int`, which holds of every camera the program reaches (its zoom stays in
  `[0.3, 1.5]`).
* Where the identity of the two buffers matters (the swap of `updateGrid`), the
  buffers are the two blocks of a `Heap` and the struct holds pointers to them
  (`PtrGrid`); `view` gives the grid on lists that a heap and a struct stand
  for.
* One iteration of the loop of `main` is `frame`, a function of the state kept
  across iterations and of what the iteration reads from the platform; drawing
  is left out.
-/

namespace Life

/-- The `Grid` struct: the front buffer `state`, the back buffer
`stateBuffer`, the dimensions and the counter `alive`. -/
structure Grid where
  state : List Bool
  stateBuffer : List Bool
  width : Int
  height : Int
  alive : Nat
deriving DecidableEq

/-- Read `buf[i]`: fails outside the buffer. -/
def rd (buf : List Bool) (i : Int) : Option Bool :=
  if i < 0 then none else buf[i.toNat]?

/-- Write `buf[i] = v`: fails outside the buffer. -/
def wr (buf : List Bool) (i : Int) (v : Bool) : Option (List Bool) :=
  if 0 ≤ i ∧ i < (buf.length : Int) then some (buf.set i.toNat v) else none

/-- The loop `for (int i = 0; i < bound; i++) body(i)` over a state that the
body may fail to produce. -/
def forLoop {σ : Type} (bound : Int) (body : Int → σ → Option σ) (s : σ) : Option σ :=
  (List.range bound.toNat).foldlM (fun acc (i : Nat) => body (i : Int) acc) s

/-- The table `NEIGHBOURS[8][2]`. -/
def NEIGHBOURS : List (Int × Int) :=
  [(-1, -1), (0, -1), (1, -1),
   (-1,  0), (1,  0),
   (-1,  1), (0,  1), (1,  1)]

/-- Function `swapBuffers`: the two buffer pointers trade places. -/
def swapBuffers (g : Grid) : Grid :=
  { g with state := g.stateBuffer, stateBuffer := g.state }

/-- Function `getIndex`: `-1` for a coordinate off the rectangle, else `width * y + x`. -/
def getIndex (g : Grid) (x y : Int) : Int :=
  if x < 0 ∨ x ≥ g.width ∨ y < 0 ∨ y ≥ g.height then -1 else g.width * y + x

/-- The body of the loops of `copyBuffer` at `(x, y)`:
`stateBuffer[idx] = state[idx]`. -/
def copyCell (x y : Int) (g : Grid) : Option Grid := do
  let idx := getIndex g x y
  let v ← rd g.state idx
  let buf ← wr g.stateBuffer idx v
  pure { g with stateBuffer := buf }

/-- Function `copyBuffer`: `copyCell` for every cell in raster order. -/
def copyBuffer (g : Grid) : Option Grid :=
  forLoop g.height (fun y g1 => forLoop g1.width (fun x g2 => copyCell x y g2) g1) g

/-- The body of the loops of `initEmpty` at `(x, y)`: `state[idx] = false`. -/
def clearCell (x y : Int) (g : Grid) : Option Grid := do
  let idx := getIndex g x y
  let buf ← wr g.state idx false
  pure { g with state := buf }

/-- Function `initEmpty`: `clearCell` for every cell in raster order, then `copyBuffer`. -/
def initEmpty (g : Grid) : Option Grid := do
  let g1 ← forLoop g.height (fun y g1 => forLoop g1.width (fun x g2 => clearCell x y g2) g1) g
  copyBuffer g1

/-- The body of the loops of `initRandom` at `(x, y)`:
`state[idx] = rand() & 1`.  The generator is the sequence `rand` of the values
that successive `rand()` calls return after `srand(time(0))`; the second
component of the loop state is the number of calls made so far. -/
def randomCell (rand : Nat → Nat) (x y : Int) (s : Grid × Nat) : Option (Grid × Nat) := do
  let idx := getIndex s.1 x y
  let value : Bool := rand s.2 % 2 != 0
  let buf ← wr s.1.state idx value
  pure ({ s.1 with state := buf }, s.2 + 1)

/-- Function `initRandom`: `randomCell` for every cell in raster order, then
`copyBuffer`. -/
def initRandom (rand : Nat → Nat) (g : Grid) : Option Grid := do
  let r ← forLoop g.height
    (fun y s1 => forLoop s1.1.width (fun x s2 => randomCell rand x y s2) s1) (g, 0)
  copyBuffer r.1

/-- The body of the loop of `countCellNeighbours` at table entry `d`: the
buffer is read only when the index is not `-1` (the `&&` short-circuits). -/
def countStep (g : Grid) (x y : Int) (count : Nat) (d : Int × Int) : Option Nat := do
  let idx := getIndex g (x + d.1) (y + d.2)
  if idx ≠ -1 then
    let b ← rd g.state idx
    pure (if b then count + 1 else count)
  else
    pure count

/-- Function `countCellNeighbours`: `countStep` over the eight table entries, from 0. -/
def countCellNeighbours (g : Grid) (x y : Int) : Option Nat :=
  NEIGHBOURS.foldlM (countStep g x y) 0

/-- Function `nextCellState`: the neighbour count, then the read of `state[idx]`, then
the two-branch rule. -/
def nextCellState (g : Grid) (x y : Int) : Option Bool := do
  let neighbours ← countCellNeighbours g x y
  let idx := getIndex g x y
  let cur ← rd g.state idx
  if cur then
    if neighbours = 2 ∨ neighbours = 3 then pure true else pure false
  else
    if neighbours = 3 then pure true else pure false

/-- The body of the loops of `updateGrid` at `(x, y)`: the next state goes to
`stateBuffer[idx]` and is added to the counter. -/
def updateCell (x y : Int) (g : Grid) : Option Grid := do
  let idx := getIndex g x y
  let state ← nextCellState g x y
  let buf ← wr g.stateBuffer idx state
  pure { g with stateBuffer := buf, alive := g.alive + (if state then 1 else 0) }

/-- Function `updateGrid`: reset the counter, `updateCell` for every cell in raster
order, then swap the buffers. -/
def updateGrid (g : Grid) : Option Grid := do
  let g0 := { g with alive := 0 }
  let g3 ← forLoop g0.height (fun y g1 => forLoop g1.width (fun x g2 => updateCell x y g2) g1) g0
  pure (swapBuffers g3)

/-- Function `getCell`: the index, then the unguarded read `state[idx]`. -/
def getCell (g : Grid) (x y : Int) : Option Bool :=
  rd g.state (getIndex g x y)

/-- Function `setCell`: return at index `-1`, else `state[idx] = v`. -/
def setCell (g : Grid) (x y : Int) (v : Bool) : Option Grid :=
  let idx := getIndex g x y
  if idx = -1 then some g
  else do
    let buf ← wr g.state idx v
    pure { g with state := buf }

/-- A sequence of edits `setCell(x, y, v)`, applied in order. -/
def applyEdits (es : List (Int × Int × Bool)) (g : Grid) : Option Grid :=
  es.foldlM (fun acc e => setCell acc e.1 e.2.1 e.2.2) g

/-- Iteration: `n` successive calls of `updateGrid`. -/
def steps : Nat → Grid → Option Grid
  | 0, g => some g
  | n + 1, g => (updateGrid g).bind (steps n)

/-! ## Specification-side notions -/

/-- The coordinate pair `(x, y)` addresses a cell of the rectangle. -/
def inRange (g : Grid) (x y : Int) : Prop :=
  0 ≤ x ∧ x < g.width ∧ 0 ≤ y ∧ y < g.height

instance (g : Grid) (x y : Int) : Decidable (inRange g x y) :=
  inferInstanceAs (Decidable (0 ≤ x ∧ x < g.width ∧ 0 ≤ y ∧ y < g.height))

/-- The data-model invariant: non-negative dimensions and two buffers of
`width * height` cells. -/
def WellFormed (g : Grid) : Prop :=
  0 ≤ g.width ∧ 0 ≤ g.height ∧
  (g.state.length : Int) = g.width * g.height ∧
  (g.stateBuffer.length : Int) = g.width * g.height

instance (g : Grid) : Decidable (WellFormed g) :=
  inferInstanceAs (Decidable (0 ≤ g.width ∧ 0 ≤ g.height ∧
    (g.state.length : Int) = g.width * g.height ∧
    (g.stateBuffer.length : Int) = g.width * g.height))

/-- Grid `t` is well formed with the dimensions of `g`. -/
def SameShape (g t : Grid) : Prop :=
  WellFormed t ∧ t.width = g.width ∧ t.height = g.height

/-- The front-buffer value of `(x, y)`, with every coordinate off the
rectangle dead. -/
def liveAt (g : Grid) (x y : Int) : Bool :=
  if inRange g x y then g.state.getD (g.width * y + x).toNat false else false

/-- One for a live cell, zero for a dead one. -/
def b2n (b : Bool) : Nat := if b then 1 else 0

/-- The number of live cells among the eight Moore neighbours of `(x, y)`,
neighbours off the rectangle counting as dead. -/
def mooreCount (g : Grid) (x y : Int) : Nat :=
  b2n (liveAt g (x - 1) (y - 1)) + b2n (liveAt g x (y - 1)) + b2n (liveAt g (x + 1) (y - 1)) +
  b2n (liveAt g (x - 1) y) + b2n (liveAt g (x + 1) y) +
  b2n (liveAt g (x - 1) (y + 1)) + b2n (liveAt g x (y + 1)) + b2n (liveAt g (x + 1) (y + 1))

/-- The rule B3/S23: alive iff (alive with 2 or 3 live neighbours) or (dead
with exactly 3). -/
def conwayRule (cur : Bool) (n : Nat) : Bool :=
  (cur && (n == 2 || n == 3)) || (!cur && n == 3)

/-- The next state of `(x, y)` by the rule, from the front buffer of `g`. -/
def nxt (g : Grid) (x y : Int) : Bool :=
  conwayRule (liveAt g x y) (mooreCount g x y)

/-! ### Life on the unbounded plane -/

/-- The Moore neighbourhood as offsets: every pair of steps in `-1, 0, 1`
except the null one. -/
def mooreOffsets : List (Int × Int) :=
  (List.product [-1, 0, 1] [-1, 0, 1]).filter (fun d => d != (0, 0))

/-- The number of live Moore neighbours of `(x, y)` in a configuration of the
whole plane. -/
def planeCount (p : Int → Int → Bool) (x y : Int) : Nat :=
  mooreOffsets.countP (fun d => p (x + d.1) (y + d.2))

/-- One generation of Life on the unbounded plane: a live cell survives with 2
or 3 live neighbours, a dead cell is born with exactly 3. -/
def planeStep (p : Int → Int → Bool) (x y : Int) : Bool :=
  if p x y then decide (planeCount p x y = 2 ∨ planeCount p x y = 3)
  else decide (planeCount p x y = 3)

/-! ### Loop invariants -/

/-- The state of the scan of `updateGrid` after `k` cells: the front buffer and
the dimensions are those of the start, the first `k` cells of the back buffer
hold the next generation, and the counter is the number of live ones. -/
structure ScanInv (g : Grid) (k : Nat) (t : Grid) : Prop where
  state_eq : t.state = g.state
  width_eq : t.width = g.width
  height_eq : t.height = g.height
  len_eq : t.stateBuffer.length = g.stateBuffer.length
  alive_eq : t.alive = (t.stateBuffer.take k).count true
  cells : ∀ x y : Int, inRange g x y → g.width * y + x < (k : Int) →
    rd t.stateBuffer (g.width * y + x) = some (nxt g x y)

/-- The state of the scan of `copyBuffer`: only the contents of the back
buffer have changed. -/
structure CopyInv (g t : Grid) : Prop where
  state_eq : t.state = g.state
  width_eq : t.width = g.width
  height_eq : t.height = g.height
  len_eq : t.stateBuffer.length = g.stateBuffer.length
  alive_eq : t.alive = g.alive

/-- The state of the first scan of `initEmpty` after `k` cells: the first `k`
cells of the front buffer are dead, and nothing but its contents has changed. -/
structure ClearInv (g : Grid) (k : Nat) (t : Grid) : Prop where
  width_eq : t.width = g.width
  height_eq : t.height = g.height
  len_eq : t.state.length = g.state.length
  buffer_eq : t.stateBuffer = g.stateBuffer
  alive_eq : t.alive = g.alive
  cells : ∀ x y : Int, inRange g x y → g.width * y + x < (k : Int) →
    rd t.state (g.width * y + x) = some false

/-- The state of the first scan of `initRandom`: only the contents of the
front buffer have changed. -/
structure RandomInv (g : Grid) (s : Grid × Nat) : Prop where
  width_eq : s.1.width = g.width
  height_eq : s.1.height = g.height
  len_eq : s.1.state.length = g.state.length
  buffer_eq : s.1.stateBuffer = g.stateBuffer
  alive_eq : s.1.alive = g.alive

/-! ### Sample grids -/

/-- A 3 x 3 grid with the middle row alive, a stale back buffer and a stale
counter. -/
def rowGrid : Grid :=
  ⟨[false, false, false, true, true, true, false, false, false],
   [true, true, true, true, true, true, true, true, true], 3, 3, 77⟩

/-- A 4 x 4 grid with the 2 x 2 block in the interior. -/
def blockGrid : Grid :=
  ⟨[false, false, false, false,
    false, true, true, false,
    false, true, true, false,
    false, false, false, false],
   [false, false, false, false, false, false, false, false,
    false, false, false, false, false, false, false, false], 4, 4, 4⟩

/-- A 2 x 2 grid with a dead front buffer, live cells in the back buffer and a
counter of 3. -/
def deadGrid : Grid :=
  ⟨[false, false, false, false], [true, false, true, true], 2, 2, 3⟩

/-- A 1 x 1 grid with its cell dead and a counter of 0. -/
def unitGrid : Grid := ⟨[false], [false], 1, 1, 0⟩

/-- A 2 x 2 grid with every cell alive and a counter of 4: the grid that
`updateGrid` leaves when it is run on the full 2 x 2 grid. -/
def fullGrid : Grid :=
  ⟨[true, true, true, true], [true, true, true, true], 2, 2, 4⟩

/-! ### Patterns -/

/-- The grid of `W` columns and `H` rows whose live cells are the members of
`cells`, with a dead back buffer and a counter of 0. -/
def gridOf (W H : Nat) (cells : List (Int × Int)) : Grid :=
  ⟨(List.range (W * H)).map
      (fun (i : Nat) => cells.contains (((i : Int) % (W : Int)), ((i : Int) / (W : Int)))),
   List.replicate (W * H) false, (W : Int), (H : Int), 0⟩

/-- The rule applied at `(a, b)` to a configuration given as a predicate: the
cell itself and its eight Moore neighbours. -/
def stepPred (p : Int → Int → Bool) (a b : Int) : Bool :=
  conwayRule (p a b)
    (b2n (p (a - 1) (b - 1)) + b2n (p a (b - 1)) + b2n (p (a + 1) (b - 1)) +
     b2n (p (a - 1) b) + b2n (p (a + 1) b) +
     b2n (p (a - 1) (b + 1)) + b2n (p a (b + 1)) + b2n (p (a + 1) (b + 1)))

/-- Membership of `(a, b)` in a list of cells, as a boolean. -/
def hasCell (cells : List (Int × Int)) (a b : Int) : Bool :=
  cells.contains (a, b)

/-- The glider of the scenario and its next four generations. -/
def gliderGen : Nat → List (Int × Int)
  | 0 => [(1, 0), (2, 1), (0, 2), (1, 2), (2, 2)]
  | 1 => [(0, 1), (2, 1), (1, 2), (2, 2), (1, 3)]
  | 2 => [(2, 1), (0, 2), (2, 2), (1, 3), (2, 3)]
  | 3 => [(1, 1), (2, 2), (3, 2), (1, 3), (2, 3)]
  | _ => [(2, 1), (3, 2), (1, 3), (2, 3), (3, 3)]

/-! ### Mirror images -/

/-- The grid mirrored left to right: the cell `(x, y)` of the front buffer
holds what the cell `(width - 1 - x, y)` of `g` holds. -/
def mirrorX (g : Grid) : Grid :=
  { g with state := (List.range g.state.length).map (fun (i : Nat) =>
      liveAt g (g.width - 1 - (i : Int) % g.width) ((i : Int) / g.width)) }

/-- The grid mirrored top to bottom: the cell `(x, y)` of the front buffer
holds what the cell `(x, height - 1 - y)` of `g` holds. -/
def mirrorY (g : Grid) : Grid :=
  { g with state := (List.range g.state.length).map (fun (i : Nat) =>
      liveAt g ((i : Int) % g.width) (g.height - 1 - (i : Int) / g.width)) }

/-! ### The camera -/

/-- The constant `WIDTH`. -/
def WIDTH : Int := 1280

/-- The constant `HEIGHT`. -/
def HEIGHT : Int := 720

/-- The constant `CELL_SIZE`. -/
def CELL_SIZE : Int := 20

/-- The constant `LIMIT_FACTOR`. -/
def LIMIT_FACTOR : Int := 3

/-- The constant `MAX_FPS`. -/
def MAX_FPS : Int := 60

/-- The constant `ANIMATION_FRAME_DELAY = MAX_FPS / 4`, an `int` division. -/
def ANIMATION_FRAME_DELAY : Int := Int.tdiv MAX_FPS 4

/-- The `Vector2` of the graphics library, with exact rationals for `float`. -/
structure Vector2 where
  x : ℚ
  y : ℚ
deriving DecidableEq

/-- The `Camera2D` of the graphics library, with exact rationals for `float`. -/
structure Camera2D where
  offset : Vector2
  target : Vector2
  rotation : ℚ
  zoom : ℚ
deriving DecidableEq

/-- Modelled from the spec: the `Clamp` of the graphics library, which is not
part of the repository: the value, raised to `lo` when below it and then
lowered to `hi` when above it. -/
def Clamp (value lo hi : ℚ) : ℚ :=
  let result := if value < lo then lo else value
  if result > hi then hi else result

/-- Modelled from the spec: the `GetScreenToWorld2D` of the graphics library,
which is not part of the repository, for a camera that is not rotated: the
inverse camera transform `world = (p - offset) / zoom + target`. -/
def GetScreenToWorld2D (p : Vector2) (camera : Camera2D) : Vector2 :=
  ⟨(p.x - camera.offset.x) / camera.zoom + camera.target.x,
   (p.y - camera.offset.y) / camera.zoom + camera.target.y⟩

/-- The conversion `(int)f` of a `float` to an `int`: truncation toward zero. -/
def truncQ (q : ℚ) : Int :=
  if 0 ≤ q then ⌊q⌋ else ⌈q⌉

/-- Function `handleMouseScroll`, with the value `dm` of `GetMouseDelta()`. -/
def handleMouseScroll (camera : Camera2D) (dm : Vector2) : Camera2D :=
  let tx := camera.target.x - dm.x * 1 / camera.zoom
  let ty := camera.target.y - dm.y * 1 / camera.zoom
  { camera with target :=
      ⟨Clamp tx 0 ((WIDTH * LIMIT_FACTOR : Int) : ℚ), Clamp ty 0 ((HEIGHT * LIMIT_FACTOR : Int) : ℚ)⟩ }

/-- Function `handleMouseZoom`, with the value `wheel` of `GetMouseWheelMove()`:
nothing is done when `wheel * 0.125` is zero. -/
def handleMouseZoom (camera : Camera2D) (wheel : ℚ) : Camera2D :=
  let zooming := wheel * (1 / 8)
  if zooming ≠ 0 then
    { camera with zoom := Clamp (camera.zoom + zooming) (3 / 10) (15 / 10) }
  else camera

/-- Function `mouseScreenPositionToWorldPosition`, with the value `m` of
`GetMousePosition()`: the two `int` quotients `(int)mworld.x / CELL_SIZE` and
`(int)mworld.y / CELL_SIZE`, which the `Vector2` that is returned holds. -/
def mouseScreenPositionToWorldPosition (camera : Camera2D) (m : Vector2) : Int × Int :=
  let mworld := GetScreenToWorld2D m camera
  (Int.tdiv (truncQ mworld.x) CELL_SIZE, Int.tdiv (truncQ mworld.y) CELL_SIZE)

/-- The camera that `main` starts with. -/
def initialCamera : Camera2D :=
  { offset := ⟨((WIDTH.tdiv 2 : Int) : ℚ), ((HEIGHT.tdiv 2 : Int) : ℚ)⟩
    target := ⟨((WIDTH.tdiv 2 : Int) : ℚ) * (LIMIT_FACTOR : ℚ),
               ((HEIGHT.tdiv 2 : Int) : ℚ) * (LIMIT_FACTOR : ℚ)⟩
    rotation := 0
    zoom := 1 }

/-- One change of the camera: a pan by a pointer delta or a wheel move. -/
inductive CameraInput where
  | scroll (dm : Vector2)
  | wheel (d : ℚ)

/-- The camera after a sequence of pans and wheel moves. -/
def cameraRun (camera : Camera2D) : List CameraInput → Camera2D
  | [] => camera
  | CameraInput.scroll dm :: rest => cameraRun (handleMouseScroll camera dm) rest
  | CameraInput.wheel d :: rest => cameraRun (handleMouseZoom camera d) rest

/-! ### The frame loop -/

/-- What one iteration of the loop of `main` reads from the platform: the keys
pressed in the frame, the values `rand()` returns if the grid is filled at
random, the buttons held, the pointer delta, the wheel move and the pointer
position. -/
structure FrameInput where
  keySpace : Bool
  keyH : Bool
  keyR : Bool
  keyC : Bool
  rand : Nat → Nat
  button0 : Bool
  button1 : Bool
  button2 : Bool
  mouseDelta : Vector2
  wheel : ℚ
  mouse : Vector2

/-- The variables of `main` that live across iterations, and the number of
calls of `updateGrid` made so far. -/
structure App where
  grid : Grid
  camera : Camera2D
  animationOn : Bool
  showHint : Bool
  timer : Int
  updates : Nat

/-- The four key tests at the top of the loop body: Space and H toggle a flag,
R calls `initRandom`, C calls `initEmpty`. -/
def keyPhase (i : FrameInput) (s : App) : Option App := do
  let animationOn := if i.keySpace then !s.animationOn else s.animationOn
  let showHint := if i.keyH then !s.showHint else s.showHint
  let g1 ← (if i.keyR then initRandom i.rand s.grid else some s.grid)
  let g2 ← (if i.keyC then initEmpty g1 else some g1)
  pure { s with grid := g2, animationOn := animationOn, showHint := showHint }

/-- The test `animationOn && timer >= ANIMATION_FRAME_DELAY`: the timer is
reset and `updateGrid` is called. -/
def stepPhase (s : App) : Option App :=
  if s.animationOn ∧ s.timer ≥ ANIMATION_FRAME_DELAY then do
    let g ← updateGrid s.grid
    pure { s with timer := 0, grid := g, updates := s.updates + 1 }
  else some s

/-- The camera after the pan (middle button held) and the wheel move of the
frame. -/
def cameraPhase (i : FrameInput) (camera : Camera2D) : Camera2D :=
  handleMouseZoom (if i.button2 then handleMouseScroll camera i.mouseDelta else camera) i.wheel

/-- The pointer handling inside the drawing block: pan, zoom, the cell under
the pointer, then `setCell` alive for the primary button, else `setCell` dead
for the secondary one. -/
def pointerPhase (i : FrameInput) (s : App) : Option App := do
  let camera := cameraPhase i s.camera
  let mworld := mouseScreenPositionToWorldPosition camera i.mouse
  let g ← (if i.button0 then setCell s.grid mworld.1 mworld.2 true
           else if i.button1 then setCell s.grid mworld.1 mworld.2 false
           else some s.grid)
  pure { s with camera := camera, grid := g }

/-- The last statement of the loop body: `timer += animationOn ? 1 : 0`. -/
def tickPhase (s : App) : App :=
  { s with timer := s.timer + (if s.animationOn then 1 else 0) }

/-- One iteration of the loop of `main`: keys, step, pointer, timer. Drawing
does not change the state. -/
def frame (i : FrameInput) (s : App) : Option App := do
  let s1 ← keyPhase i s
  let s2 ← stepPhase s1
  let s3 ← pointerPhase i s2
  pure (tickPhase s3)

/-- A sequence of iterations, one per input. -/
def runFrames (inputs : List FrameInput) (s : App) : Option App :=
  inputs.foldlM (fun acc i => frame i acc) s

/-- A frame in which no key is pressed, no button is held and the pointer and
the wheel are at rest. -/
def idleInput : FrameInput :=
  ⟨false, false, false, false, fun _ => 0, false, false, false, ⟨0, 0⟩, 0, ⟨0, 0⟩⟩

/-- A frame in which only the primary button is held, the pointer at the
screen position `(30, 30)`. -/
def clickInput : FrameInput :=
  ⟨false, false, false, false, fun _ => 0, true, false, false, ⟨0, 0⟩, 0, ⟨30, 30⟩⟩

/-- The camera of the mapping scenario: zoom 1, offset and target `(640, 360)`. -/
def plainCamera : Camera2D := ⟨⟨640, 360⟩, ⟨640, 360⟩, 0, 1⟩

/-- A paused state: the 5 x 5 grid with the single live cell `(2, 2)`, the
initial camera, `animationOn = false`, timer 0 and no step made. -/
def pausedApp : App := ⟨gridOf 5 5 [(2, 2)], initialCamera, false, true, 0, 0⟩

/-- A running state in which a step is due: the empty 3 x 3 grid, the camera
of the mapping scenario, `animationOn = true` and timer 15. -/
def dueApp : App := ⟨gridOf 3 3 [], plainCamera, true, true, 15, 0⟩

/-! ### The two buffers as heap blocks -/

/-- The two blocks that `newGrid` allocates. -/
inductive Block where
  | first
  | second
deriving DecidableEq

/-- The contents of the two blocks. -/
structure Heap where
  first : List Bool
  second : List Bool
deriving DecidableEq

/-- The contents of the block a pointer points to. -/
def Heap.load (h : Heap) : Block → List Bool
  | Block.first => h.first
  | Block.second => h.second

/-- The heap with new contents for one block. -/
def Heap.store (h : Heap) (p : Block) (l : List Bool) : Heap :=
  match p with
  | Block.first => { h with first := l }
  | Block.second => { h with second := l }

/-- The `Grid` struct as the code holds it: `state` and `stateBuffer` are
pointers, each to one block of the heap. -/
structure PtrGrid where
  state : Block
  stateBuffer : Block
  width : Int
  height : Int
  alive : Nat
deriving DecidableEq

/-- The grid that a heap and a `Grid` struct stand for: each pointer replaced
by the contents of its block. -/
def view (s : Heap × PtrGrid) : Grid :=
  ⟨s.1.load s.2.state, s.1.load s.2.stateBuffer, s.2.width, s.2.height, s.2.alive⟩

/-- Function `swapBuffers` on the struct: the two pointers trade places; no
block of the heap is read or written. -/
def swapPointers (g : PtrGrid) : PtrGrid :=
  { g with state := g.stateBuffer, stateBuffer := g.state }

/-- The body of the loops of `updateGrid` at `(x, y)` on the heap: the next
state is read through the pointer `state`, written through the pointer
`stateBuffer` and added to the counter. -/
def updateCellPtr (x y : Int) (s : Heap × PtrGrid) : Option (Heap × PtrGrid) := do
  let idx := getIndex (view s) x y
  let state ← nextCellState (view s) x y
  let buf ← wr (s.1.load s.2.stateBuffer) idx state
  pure (s.1.store s.2.stateBuffer buf,
    { s.2 with alive := s.2.alive + (if state then 1 else 0) })

/-- The scan of `updateGrid` on the heap: `updateCellPtr` for every cell in
raster order. -/
def scanPtr (s : Heap × PtrGrid) : Option (Heap × PtrGrid) :=
  forLoop s.2.height (fun y s1 => forLoop s1.2.width (fun x s2 => updateCellPtr x y s2) s1) s

/-- Function `updateGrid` on the heap: reset the counter, scan, then swap the
two pointers of the struct. The heap that is returned is the heap the scan
left. -/
def updateGridPtr (s : Heap × PtrGrid) : Option (Heap × PtrGrid) := do
  let s3 ← scanPtr (s.1, { s.2 with alive := 0 })
  pure (s3.1, swapPointers s3.2)

/-- What the scan keeps fixed: the two pointers, distinct, and the contents of
the block `front`. -/
structure ScanKeeps (front back : Block) (l : List Bool) (s : Heap × PtrGrid) : Prop where
  state_eq : s.2.state = front
  buffer_eq : s.2.stateBuffer = back
  distinct : front ≠ back
  front_eq : s.1.load front = l

/-! ## Index arithmetic -/

theorem index_bounds {W H x y : Int} (hx0 : 0 ≤ x) (hx : x < W) (hy0 : 0 ≤ y) (hy : y < H) :
    0 ≤ W * y + x ∧ W * y + x < W * H := by
  have hW : 0 ≤ W := by omega
  have h1 : 0 ≤ W * y := mul_nonneg hW hy0
  have h2 : W * (y + 1) ≤ W * H := mul_le_mul_of_nonneg_left (by omega) hW
  have h3 : W * (y + 1) = W * y + W := by ring
  constructor <;> omega

theorem index_inj {W x y x1 y1 : Int} (hx0 : 0 ≤ x) (hx : x < W) (hx10 : 0 ≤ x1) (hx1 : x1 < W)
    (h : W * y + x = W * y1 + x1) : x = x1 ∧ y = y1 := by
  have hW : 0 ≤ W := by omega
  have hy : y = y1 := by
    rcases lt_trichotomy y y1 with hlt | heq | hgt
    · exfalso
      have h2 : W * (y + 1) ≤ W * y1 := mul_le_mul_of_nonneg_left (by omega) hW
      have h3 : W * (y + 1) = W * y + W := by ring
      omega
    · exact heq
    · exfalso
      have h2 : W * (y1 + 1) ≤ W * y := mul_le_mul_of_nonneg_left (by omega) hW
      have h3 : W * (y1 + 1) = W * y1 + W := by ring
      omega
  subst hy
  exact ⟨by omega, rfl⟩

theorem getIndex_inRange {g : Grid} {x y : Int} (h : inRange g x y) :
    getIndex g x y = g.width * y + x := by
  obtain ⟨h1, h2, h3, h4⟩ := h
  unfold getIndex
  rw [if_neg (by omega)]

theorem getIndex_outRange {g : Grid} {x y : Int} (h : ¬ inRange g x y) :
    getIndex g x y = -1 := by
  unfold getIndex
  rw [if_pos]
  unfold inRange at h
  omega

theorem getIndex_ne_neg_one {g : Grid} {x y : Int} (h : inRange g x y) :
    getIndex g x y ≠ -1 := by
  rw [getIndex_inRange h]
  have := index_bounds h.1 h.2.1 h.2.2.1 h.2.2.2
  omega

theorem rd_of_lt {buf : List Bool} {i : Int} (h0 : 0 ≤ i) (h : i < (buf.length : Int)) :
    rd buf i = some (buf.getD i.toNat false) := by
  unfold rd
  rw [if_neg (by omega)]
  have : i.toNat < buf.length := by omega
  simp [List.getD, List.getElem?_eq_getElem this]

theorem rd_cell {g : Grid} {x y : Int} (hlen : (g.state.length : Int) = g.width * g.height)
    (h : inRange g x y) : rd g.state (g.width * y + x) = some (liveAt g x y) := by
  have hb := index_bounds h.1 h.2.1 h.2.2.1 h.2.2.2
  rw [rd_of_lt hb.1 (by omega)]
  unfold liveAt
  rw [if_pos h]

theorem liveAt_outRange {g : Grid} {x y : Int} (h : ¬ inRange g x y) : liveAt g x y = false := by
  unfold liveAt
  rw [if_neg h]

/-! ## Loops -/

theorem forLoop_inv {σ : Type} (P : Nat → σ → Prop) (bound : Int)
    (body : Int → σ → Option σ) (s : σ) (h0 : P 0 s)
    (hstep : ∀ (i : Nat) (t : σ), i < bound.toNat → P i t →
      ∃ t1, body (i : Int) t = some t1 ∧ P (i + 1) t1) :
    ∃ t, forLoop bound body s = some t ∧ P bound.toNat t := by
  unfold forLoop
  generalize bound.toNat = n at hstep
  induction n with
  | zero => exact ⟨s, by simp, h0⟩
  | succ n ih =>
    obtain ⟨t, ht, hPt⟩ := ih (fun i t hi hP => hstep i t (by omega) hP)
    obtain ⟨t1, ht1, hPt1⟩ := hstep n t (by omega) hPt
    refine ⟨t1, ?_, hPt1⟩
    rw [List.range_succ, List.foldlM_append, ht]
    simp [ht1]

/-- The raster scan: an invariant indexed by the number of cells already
visited is carried through the two nested loops. -/
theorem raster_inv {σ : Type} (P : Nat → σ → Prop) (W H : Nat) (wd : σ → Int)
    (body : Int → Int → σ → Option σ) (s : σ) (h0 : P 0 s)
    (hW : ∀ k t, P k t → wd t = (W : Int))
    (hstep : ∀ (x y : Nat) (t : σ), x < W → y < H → P (W * y + x) t →
      ∃ t1, body (x : Int) (y : Int) t = some t1 ∧ P (W * y + x + 1) t1) :
    ∃ t, forLoop (H : Int) (fun y t1 => forLoop (wd t1) (fun x t2 => body x y t2) t1) s = some t ∧
      P (W * H) t := by
  have key := forLoop_inv (fun y t => P (W * y) t) (H : Int)
    (fun y t1 => forLoop (wd t1) (fun x t2 => body x y t2) t1) s (by simpa using h0)
    (by
      intro y t hy hP
      have hyH : y < H := by simpa using hy
      show ∃ t1, forLoop (wd t) (fun x t2 => body x (y : Int) t2) t = some t1 ∧ P (W * (y + 1)) t1
      rw [hW _ _ hP]
      have inner := forLoop_inv (fun x t => P (W * y + x) t) (W : Int)
        (fun x t2 => body x (y : Int) t2) t (by simpa using hP)
        (by
          intro x t2 hx hP2
          have hxW : x < W := by simpa using hx
          exact hstep x y t2 hxW hyH hP2)
      obtain ⟨t1, ht1, hP1⟩ := inner
      refine ⟨t1, ht1, ?_⟩
      have : W * (y + 1) = W * y + W := by ring
      rw [this]
      simpa using hP1)
  simpa using key

/-! ## The generation step -/

theorem countStep_eq {g : Grid} (hlen : (g.state.length : Int) = g.width * g.height)
    (x y : Int) (count : Nat) (d : Int × Int) :
    countStep g x y count d = some (count + b2n (liveAt g (x + d.1) (y + d.2))) := by
  unfold countStep
  by_cases h : inRange g (x + d.1) (y + d.2)
  · have h1 := getIndex_ne_neg_one h
    simp only [h1, ne_eq, not_false_eq_true, if_true]
    rw [getIndex_inRange h, rd_cell hlen h]
    cases liveAt g (x + d.1) (y + d.2) <;> simp [b2n]
  · simp [getIndex_outRange h, liveAt_outRange h, b2n]

theorem countCellNeighbours_eq {g : Grid} (hlen : (g.state.length : Int) = g.width * g.height)
    (x y : Int) : countCellNeighbours g x y = some (mooreCount g x y) := by
  unfold countCellNeighbours NEIGHBOURS mooreCount
  simp only [List.foldlM_cons, List.foldlM_nil, countStep_eq hlen, Option.some_bind,
    Option.bind_eq_bind, pure, Int.add_zero, Int.sub_eq_add_neg, Nat.zero_add]

theorem nextCellState_eq {g : Grid} (hlen : (g.state.length : Int) = g.width * g.height)
    {x y : Int} (h : inRange g x y) :
    nextCellState g x y = some (nxt g x y) := by
  simp only [nextCellState, countCellNeighbours_eq hlen, getIndex_inRange h, rd_cell hlen h,
    Option.bind_eq_bind, Option.some_bind, nxt, conwayRule]
  cases liveAt g x y <;> by_cases h2 : mooreCount g x y = 2 <;>
    by_cases h3 : mooreCount g x y = 3 <;> simp [h2, h3]

theorem nextCellState_congr {g t : Grid} (h1 : t.state = g.state) (h2 : t.width = g.width)
    (h3 : t.height = g.height) (x y : Int) : nextCellState t x y = nextCellState g x y := by
  have hc : countStep t x y = countStep g x y := by
    funext c d
    simp only [countStep, getIndex, h1, h2, h3]
  simp only [nextCellState, countCellNeighbours, getIndex, h1, h2, h3, hc]

theorem wr_of_lt {buf : List Bool} {i : Int} (v : Bool) (h0 : 0 ≤ i) (h : i < (buf.length : Int)) :
    wr buf i v = some (buf.set i.toNat v) := by
  unfold wr
  rw [if_pos ⟨h0, h⟩]

theorem rd_set_self {buf : List Bool} {i : Int} (v : Bool) (h0 : 0 ≤ i)
    (h : i < (buf.length : Int)) : rd (buf.set i.toNat v) i = some v := by
  unfold rd
  rw [if_neg (by omega)]
  exact List.getElem?_set_self (by omega)

theorem rd_set_ne {buf : List Bool} {i j : Int} (v : Bool) (h0 : 0 ≤ i) (hj : 0 ≤ j)
    (h : i ≠ j) : rd (buf.set i.toNat v) j = rd buf j := by
  unfold rd
  by_cases hneg : j < 0
  · simp [hneg]
  · rw [if_neg hneg, if_neg hneg]
    exact List.getElem?_set_ne (by omega)

theorem take_succ_set {l : List Bool} {k : Nat} (v : Bool) (h : k < l.length) :
    (l.set k v).take (k + 1) = l.take k ++ [v] := by
  rw [List.take_succ, List.getElem?_set_self h, List.set_take,
    List.set_eq_of_length_le (by simp)]
  rfl


theorem updateCell_inv {g t : Grid} (hg : WellFormed g) {W H x y : Nat}
    (hW : g.width = (W : Int)) (hH : g.height = (H : Int)) (hx : x < W) (hy : y < H)
    (inv : ScanInv g (W * y + x) t) :
    ∃ t1, updateCell (x : Int) (y : Int) t = some t1 ∧ ScanInv g (W * y + x + 1) t1 := by
  obtain ⟨hw0, hh0, hlen, hlenB⟩ := hg
  have hr : inRange g (x : Int) (y : Int) := ⟨by omega, by omega, by omega, by omega⟩
  have hrt : inRange t (x : Int) (y : Int) := by
    unfold inRange; rw [inv.width_eq, inv.height_eq]; exact hr
  have hb := index_bounds hr.1 hr.2.1 hr.2.2.1 hr.2.2.2
  have hk : g.width * (y : Int) + (x : Int) = ((W * y + x : Nat) : Int) := by
    rw [hW]; push_cast; ring
  have hlt : ((W * y + x : Nat) : Int) < (t.stateBuffer.length : Int) := by
    rw [inv.len_eq, hlenB, ← hk]; exact hb.2
  have hidx : getIndex t (x : Int) (y : Int) = ((W * y + x : Nat) : Int) := by
    rw [getIndex_inRange hrt, inv.width_eq, hk]
  have hnext : nextCellState t (x : Int) (y : Int) = some (nxt g x y) := by
    rw [nextCellState_congr inv.state_eq inv.width_eq inv.height_eq, nextCellState_eq hlen hr]
  refine ⟨{ t with stateBuffer := t.stateBuffer.set (W * y + x) (nxt g x y),
                   alive := t.alive + (if nxt g x y then 1 else 0) }, ?_, ?_⟩
  · simp only [updateCell, hidx, hnext, Option.bind_eq_bind, Option.some_bind,
      wr_of_lt _ (Int.natCast_nonneg _) hlt, Int.toNat_ofNat, pure]
  · have hltN : W * y + x < t.stateBuffer.length := by exact_mod_cast hlt
    refine ⟨inv.state_eq, inv.width_eq, inv.height_eq, by simp [inv.len_eq], ?_, ?_⟩
    · show t.alive + (if nxt g x y then 1 else 0)
        = ((t.stateBuffer.set (W * y + x) (nxt g x y)).take (W * y + x + 1)).count true
      rw [take_succ_set _ hltN, List.count_append, inv.alive_eq]
      cases nxt g x y <;> simp
    · intro x1 y1 hr1 hlt1
      show rd (t.stateBuffer.set (W * y + x) (nxt g x y)) (g.width * y1 + x1) = some (nxt g x1 y1)
      have hb1 := index_bounds hr1.1 hr1.2.1 hr1.2.2.1 hr1.2.2.2
      by_cases heq : g.width * y1 + x1 = ((W * y + x : Nat) : Int)
      · have hxy := index_inj hr1.1 hr1.2.1 hr.1 hr.2.1 (heq.trans hk.symm)
        rw [hxy.1, hxy.2, hk]
        have := @rd_set_self t.stateBuffer _ (nxt g x y) (Int.natCast_nonneg (W * y + x)) hlt
        simpa using this
      · have := @rd_set_ne t.stateBuffer ((W * y + x : Nat) : Int)
          (g.width * y1 + x1) (nxt g x y) (Int.natCast_nonneg _) hb1.1 (Ne.symm heq)
        rw [Int.toNat_ofNat] at this
        rw [this]
        apply inv.cells x1 y1 hr1
        push_cast at hlt1 heq ⊢
        omega


theorem updateGrid_spec {g : Grid} (hg : WellFormed g) :
    ∃ g1, updateGrid g = some g1 ∧ g1.width = g.width ∧ g1.height = g.height ∧
      g1.stateBuffer = g.state ∧ g1.state.length = g.stateBuffer.length ∧
      g1.alive = g1.state.count true ∧
      ∀ x y : Int, inRange g x y → rd g1.state (g.width * y + x) = some (nxt g x y) := by
  have hg1 := hg
  obtain ⟨hw0, hh0, hlen, hlenB⟩ := hg1
  have hW : g.width = (g.width.toNat : Int) := (Int.toNat_of_nonneg hw0).symm
  have hH : g.height = (g.height.toNat : Int) := (Int.toNat_of_nonneg hh0).symm
  have h0 : ScanInv g 0 { g with alive := 0 } := ⟨rfl, rfl, rfl, rfl, by simp, by
    intro x y hr hlt
    have := index_bounds hr.1 hr.2.1 hr.2.2.1 hr.2.2.2
    simp at hlt
    omega⟩
  obtain ⟨t, ht, inv⟩ := raster_inv (ScanInv g) g.width.toNat g.height.toNat Grid.width
    updateCell { g with alive := 0 } h0 (fun k t inv => inv.width_eq.trans hW)
    (fun x y t hx hy inv => updateCell_inv hg hW hH hx hy inv)
  rw [← hH] at ht
  have hN : ((g.width.toNat * g.height.toNat : Nat) : Int) = g.width * g.height := by
    push_cast; rw [← hW, ← hH]
  have hlenN : t.stateBuffer.length = g.width.toNat * g.height.toNat := by
    have : (t.stateBuffer.length : Int) = ((g.width.toNat * g.height.toNat : Nat) : Int) := by
      rw [inv.len_eq, hlenB, hN]
    exact_mod_cast this
  refine ⟨swapBuffers t, ?_, inv.width_eq, inv.height_eq, inv.state_eq, inv.len_eq, ?_, ?_⟩
  · simp only [updateGrid, Option.bind_eq_bind, ht, Option.some_bind, pure]
  · show t.alive = t.stateBuffer.count true
    rw [inv.alive_eq, List.take_of_length_le (by omega)]
  · intro x y hr
    show rd t.stateBuffer (g.width * y + x) = some (nxt g x y)
    apply inv.cells x y hr
    rw [hN]
    exact (index_bounds hr.1 hr.2.1 hr.2.2.1 hr.2.2.2).2

/-! ## The other grid operations -/

theorem index_surj {W H i : Int} (hW : 0 ≤ W) (hi0 : 0 ≤ i) (hi : i < W * H) :
    ∃ x y : Int, (0 ≤ x ∧ x < W ∧ 0 ≤ y ∧ y < H) ∧ W * y + x = i := by
  have hWpos : 0 < W := by
    rcases eq_or_lt_of_le hW with h | h
    · rw [← h] at hi; simp at hi; omega
    · exact h
  refine ⟨i % W, i / W, ⟨Int.emod_nonneg i (by omega), Int.emod_lt_of_pos i hWpos,
    Int.ediv_nonneg hi0 hW, ?_⟩, Int.ediv_add_emod i W⟩
  apply Int.ediv_lt_of_lt_mul hWpos
  rw [mul_comm]; exact hi

theorem getCell_inRange {g : Grid} {x y : Int} (h : inRange g x y) :
    getCell g x y = rd g.state (g.width * y + x) := by
  unfold getCell
  rw [getIndex_inRange h]

theorem getCell_outRange_eq {g : Grid} {x y : Int} (h : ¬ inRange g x y) :
    getCell g x y = none := by
  unfold getCell
  rw [getIndex_outRange h]
  rfl

theorem copyCell_inv {g t : Grid} (hg : WellFormed g) {x y : Int} (hr : inRange g x y)
    (inv : CopyInv g t) : ∃ t1, copyCell x y t = some t1 ∧ CopyInv g t1 := by
  obtain ⟨hw0, hh0, hlen, hlenB⟩ := hg
  have hrt : inRange t x y := by
    unfold inRange; rw [inv.width_eq, inv.height_eq]; exact hr
  have hb := index_bounds hr.1 hr.2.1 hr.2.2.1 hr.2.2.2
  have hidx : getIndex t x y = g.width * y + x := by
    rw [getIndex_inRange hrt, inv.width_eq]
  have hrd : rd t.state (g.width * y + x) = some (liveAt g x y) := by
    rw [inv.state_eq]; exact rd_cell hlen hr
  have hlt : g.width * y + x < (t.stateBuffer.length : Int) := by
    rw [inv.len_eq, hlenB]; exact hb.2
  refine ⟨{ t with stateBuffer := t.stateBuffer.set (g.width * y + x).toNat (liveAt g x y) },
    ?_, ⟨inv.state_eq, inv.width_eq, inv.height_eq, by simp [inv.len_eq], inv.alive_eq⟩⟩
  simp only [copyCell, hidx, hrd, Option.bind_eq_bind, Option.some_bind,
    wr_of_lt _ hb.1 hlt, pure]

theorem copyBuffer_spec {g : Grid} (hg : WellFormed g) :
    ∃ g1, copyBuffer g = some g1 ∧ CopyInv g g1 := by
  have hg1 := hg
  obtain ⟨hw0, hh0, hlen, hlenB⟩ := hg1
  have hW : g.width = (g.width.toNat : Int) := (Int.toNat_of_nonneg hw0).symm
  have hH : g.height = (g.height.toNat : Int) := (Int.toNat_of_nonneg hh0).symm
  obtain ⟨t, ht, inv⟩ := raster_inv (fun _ t => CopyInv g t) g.width.toNat g.height.toNat
    Grid.width copyCell g ⟨rfl, rfl, rfl, rfl, rfl⟩ (fun k t inv => inv.width_eq.trans hW)
    (fun x y t hx hy inv =>
      copyCell_inv hg ⟨by omega, by omega, by omega, by omega⟩ inv)
  rw [← hH] at ht
  exact ⟨t, ht, inv⟩

theorem clearCell_inv {g t : Grid} (hg : WellFormed g) {W H x y : Nat}
    (hW : g.width = (W : Int)) (hH : g.height = (H : Int)) (hx : x < W) (hy : y < H)
    (inv : ClearInv g (W * y + x) t) :
    ∃ t1, clearCell (x : Int) (y : Int) t = some t1 ∧ ClearInv g (W * y + x + 1) t1 := by
  obtain ⟨hw0, hh0, hlen, hlenB⟩ := hg
  have hr : inRange g (x : Int) (y : Int) := ⟨by omega, by omega, by omega, by omega⟩
  have hrt : inRange t (x : Int) (y : Int) := by
    unfold inRange; rw [inv.width_eq, inv.height_eq]; exact hr
  have hb := index_bounds hr.1 hr.2.1 hr.2.2.1 hr.2.2.2
  have hk : g.width * (y : Int) + (x : Int) = ((W * y + x : Nat) : Int) := by
    rw [hW]; push_cast; ring
  have hlt : ((W * y + x : Nat) : Int) < (t.state.length : Int) := by
    rw [inv.len_eq, hlen, ← hk]; exact hb.2
  have hidx : getIndex t (x : Int) (y : Int) = ((W * y + x : Nat) : Int) := by
    rw [getIndex_inRange hrt, inv.width_eq, hk]
  refine ⟨{ t with state := t.state.set (W * y + x) false }, ?_, ?_⟩
  · simp only [clearCell, hidx, Option.bind_eq_bind, Option.some_bind,
      wr_of_lt _ (Int.natCast_nonneg _) hlt, Int.toNat_ofNat, pure]
  · refine ⟨inv.width_eq, inv.height_eq, by simp [inv.len_eq], inv.buffer_eq, inv.alive_eq, ?_⟩
    intro x1 y1 hr1 hlt1
    show rd (t.state.set (W * y + x) false) (g.width * y1 + x1) = some false
    have hb1 := index_bounds hr1.1 hr1.2.1 hr1.2.2.1 hr1.2.2.2
    by_cases heq : g.width * y1 + x1 = ((W * y + x : Nat) : Int)
    · rw [heq]
      have := @rd_set_self t.state _ false (Int.natCast_nonneg (W * y + x)) hlt
      simpa using this
    · have := @rd_set_ne t.state ((W * y + x : Nat) : Int)
        (g.width * y1 + x1) false (Int.natCast_nonneg _) hb1.1 (Ne.symm heq)
      rw [Int.toNat_ofNat] at this
      rw [this]
      apply inv.cells x1 y1 hr1
      push_cast at hlt1 heq ⊢
      omega

theorem randomCell_inv {g : Grid} {s : Grid × Nat} (rand : Nat → Nat) (hg : WellFormed g)
    {x y : Int} (hr : inRange g x y) (inv : RandomInv g s) :
    ∃ s1, randomCell rand x y s = some s1 ∧ RandomInv g s1 := by
  obtain ⟨hw0, hh0, hlen, hlenB⟩ := hg
  have hrt : inRange s.1 x y := by
    unfold inRange; rw [inv.width_eq, inv.height_eq]; exact hr
  have hb := index_bounds hr.1 hr.2.1 hr.2.2.1 hr.2.2.2
  have hidx : getIndex s.1 x y = g.width * y + x := by
    rw [getIndex_inRange hrt, inv.width_eq]
  have hlt : g.width * y + x < (s.1.state.length : Int) := by
    rw [inv.len_eq, hlen]; exact hb.2
  refine ⟨({ s.1 with state := s.1.state.set (g.width * y + x).toNat (rand s.2 % 2 != 0) },
    s.2 + 1), ?_, ⟨inv.width_eq, inv.height_eq, by simp [inv.len_eq], inv.buffer_eq, inv.alive_eq⟩⟩
  simp only [randomCell, hidx, Option.bind_eq_bind, Option.some_bind,
    wr_of_lt _ hb.1 hlt, pure]


theorem initEmpty_spec {g : Grid} (hg : WellFormed g) :
    ∃ g1, initEmpty g = some g1 ∧ SameShape g g1 ∧ g1.alive = g.alive ∧
      ∀ x y : Int, inRange g x y → rd g1.state (g.width * y + x) = some false := by
  have hg1 := hg
  obtain ⟨hw0, hh0, hlen, hlenB⟩ := hg1
  have hW : g.width = (g.width.toNat : Int) := (Int.toNat_of_nonneg hw0).symm
  have hH : g.height = (g.height.toNat : Int) := (Int.toNat_of_nonneg hh0).symm
  have h0 : ClearInv g 0 g := ⟨rfl, rfl, rfl, rfl, rfl, by
    intro x y hr hlt
    have := index_bounds hr.1 hr.2.1 hr.2.2.1 hr.2.2.2
    simp at hlt
    omega⟩
  obtain ⟨t, ht, inv⟩ := raster_inv (ClearInv g) g.width.toNat g.height.toNat Grid.width
    clearCell g h0 (fun k t inv => inv.width_eq.trans hW)
    (fun x y t hx hy inv => clearCell_inv hg hW hH hx hy inv)
  rw [← hH] at ht
  have hN : ((g.width.toNat * g.height.toNat : Nat) : Int) = g.width * g.height := by
    push_cast; rw [← hW, ← hH]
  have hlenT : (t.state.length : Int) = t.width * t.height := by
    rw [inv.len_eq, inv.width_eq, inv.height_eq, hlen]
  have ht_wf : WellFormed t :=
    ⟨by rw [inv.width_eq]; exact hw0, by rw [inv.height_eq]; exact hh0, hlenT,
      by rw [inv.buffer_eq, inv.width_eq, inv.height_eq, hlenB]⟩
  obtain ⟨g1, hg1, cinv⟩ := copyBuffer_spec ht_wf
  refine ⟨g1, ?_, ⟨⟨?_, ?_, ?_, ?_⟩, ?_, ?_⟩, ?_, ?_⟩
  · simp only [initEmpty, Option.bind_eq_bind, ht, Option.some_bind, hg1]
  · rw [cinv.width_eq, inv.width_eq]; exact hw0
  · rw [cinv.height_eq, inv.height_eq]; exact hh0
  · rw [cinv.state_eq, cinv.width_eq, cinv.height_eq]; exact hlenT
  · rw [cinv.len_eq, cinv.width_eq, cinv.height_eq]; exact ht_wf.2.2.2
  · rw [cinv.width_eq, inv.width_eq]
  · rw [cinv.height_eq, inv.height_eq]
  · rw [cinv.alive_eq, inv.alive_eq]
  · intro x y hr
    rw [cinv.state_eq]
    apply inv.cells x y hr
    rw [hN]
    exact (index_bounds hr.1 hr.2.1 hr.2.2.1 hr.2.2.2).2

theorem initRandom_spec (rand : Nat → Nat) {g : Grid} (hg : WellFormed g) :
    ∃ g1, initRandom rand g = some g1 ∧ SameShape g g1 ∧ g1.alive = g.alive := by
  have hg1 := hg
  obtain ⟨hw0, hh0, hlen, hlenB⟩ := hg1
  have hW : g.width = (g.width.toNat : Int) := (Int.toNat_of_nonneg hw0).symm
  have hH : g.height = (g.height.toNat : Int) := (Int.toNat_of_nonneg hh0).symm
  obtain ⟨s, hs, inv⟩ := raster_inv (fun _ s => RandomInv g s) g.width.toNat g.height.toNat
    (fun s => s.1.width) (randomCell rand) (g, 0) ⟨rfl, rfl, rfl, rfl, rfl⟩
    (fun k s inv => inv.width_eq.trans hW)
    (fun x y s hx hy inv =>
      randomCell_inv rand hg ⟨by omega, by omega, by omega, by omega⟩ inv)
  rw [← hH] at hs
  have hlenT : (s.1.state.length : Int) = s.1.width * s.1.height := by
    rw [inv.len_eq, inv.width_eq, inv.height_eq, hlen]
  have hs_wf : WellFormed s.1 :=
    ⟨by rw [inv.width_eq]; exact hw0, by rw [inv.height_eq]; exact hh0, hlenT,
      by rw [inv.buffer_eq, inv.width_eq, inv.height_eq, hlenB]⟩
  obtain ⟨g1, hg1, cinv⟩ := copyBuffer_spec hs_wf
  refine ⟨g1, ?_, ⟨⟨?_, ?_, ?_, ?_⟩, ?_, ?_⟩, ?_⟩
  · simp only [initRandom, Option.bind_eq_bind, hs, Option.some_bind, hg1]
  · rw [cinv.width_eq, inv.width_eq]; exact hw0
  · rw [cinv.height_eq, inv.height_eq]; exact hh0
  · rw [cinv.state_eq, cinv.width_eq, cinv.height_eq]; exact hlenT
  · rw [cinv.len_eq, cinv.width_eq, cinv.height_eq]; exact hs_wf.2.2.2
  · rw [cinv.width_eq, inv.width_eq]
  · rw [cinv.height_eq, inv.height_eq]
  · rw [cinv.alive_eq, inv.alive_eq]

theorem copyBuffer_shape {g : Grid} (hg : WellFormed g) :
    ∃ g1, copyBuffer g = some g1 ∧ SameShape g g1 := by
  obtain ⟨g1, h1, cinv⟩ := copyBuffer_spec hg
  obtain ⟨hw0, hh0, hlen, hlenB⟩ := hg
  refine ⟨g1, h1, ⟨?_, ?_, ?_, ?_⟩, cinv.width_eq, cinv.height_eq⟩
  · rw [cinv.width_eq]; exact hw0
  · rw [cinv.height_eq]; exact hh0
  · rw [cinv.state_eq, cinv.width_eq, cinv.height_eq]; exact hlen
  · rw [cinv.len_eq, cinv.width_eq, cinv.height_eq]; exact hlenB

theorem updateGrid_shape {g : Grid} (hg : WellFormed g) :
    ∃ g1, updateGrid g = some g1 ∧ SameShape g g1 ∧ g1.alive = g1.state.count true := by
  obtain ⟨g1, h1, hw, hh, hb, hl, ha, _⟩ := updateGrid_spec hg
  obtain ⟨hw0, hh0, hlen, hlenB⟩ := hg
  refine ⟨g1, h1, ⟨⟨?_, ?_, ?_, ?_⟩, hw, hh⟩, ha⟩
  · rw [hw]; exact hw0
  · rw [hh]; exact hh0
  · rw [hl, hw, hh]; exact hlenB
  · rw [hb, hw, hh]; exact hlen

theorem swapBuffers_shape {g : Grid} (hg : WellFormed g) : SameShape g (swapBuffers g) :=
  ⟨⟨hg.1, hg.2.1, hg.2.2.2, hg.2.2.1⟩, rfl, rfl⟩

theorem setCell_inRange {g : Grid} (hg : WellFormed g) {x y : Int} (hr : inRange g x y)
    (v : Bool) :
    setCell g x y v = some { g with state := g.state.set (g.width * y + x).toNat v } := by
  have hb := index_bounds hr.1 hr.2.1 hr.2.2.1 hr.2.2.2
  have hne : g.width * y + x ≠ -1 := by omega
  simp only [setCell, getIndex_inRange hr, hne, if_false, Option.bind_eq_bind,
    wr_of_lt v hb.1 (by rw [hg.2.2.1]; exact hb.2), Option.some_bind, pure]

theorem setCell_outRange_eq {g : Grid} {x y : Int} (hr : ¬ inRange g x y) (v : Bool) :
    setCell g x y v = some g := by
  simp [setCell, getIndex_outRange hr]

theorem setCell_shape {g : Grid} (hg : WellFormed g) (x y : Int) (v : Bool) :
    ∃ g1, setCell g x y v = some g1 ∧ SameShape g g1 ∧ g1.alive = g.alive := by
  by_cases hr : inRange g x y
  · refine ⟨_, setCell_inRange hg hr v, ⟨⟨hg.1, hg.2.1, ?_, hg.2.2.2⟩, rfl, rfl⟩, rfl⟩
    show (((g.state.set (g.width * y + x).toNat v).length : Nat) : Int) = g.width * g.height
    rw [List.length_set]; exact hg.2.2.1
  · exact ⟨g, setCell_outRange_eq hr v, ⟨hg, rfl, rfl⟩, rfl⟩

theorem applyEdits_shape (es : List (Int × Int × Bool)) {g : Grid} (hg : WellFormed g) :
    ∃ g1, applyEdits es g = some g1 ∧ SameShape g g1 ∧ g1.alive = g.alive := by
  induction es generalizing g with
  | nil => exact ⟨g, rfl, ⟨hg, rfl, rfl⟩, rfl⟩
  | cons e es ih =>
    obtain ⟨g1, h1, ⟨wf1, hw1, hh1⟩, ha1⟩ := setCell_shape hg e.1 e.2.1 e.2.2
    obtain ⟨g2, h2, ⟨wf2, hw2, hh2⟩, ha2⟩ := ih wf1
    refine ⟨g2, ?_, ⟨wf2, hw2.trans hw1, hh2.trans hh1⟩, ha2.trans ha1⟩
    unfold applyEdits at h2 ⊢
    simp only [List.foldlM_cons, h1, Option.bind_eq_bind, Option.some_bind, h2]

theorem steps_succ_spec (n : Nat) {g : Grid} (hg : WellFormed g) :
    ∃ g1, steps (n + 1) g = some g1 ∧ SameShape g g1 ∧ g1.alive = g1.state.count true := by
  induction n generalizing g with
  | zero =>
    obtain ⟨g1, h1, hs, ha⟩ := updateGrid_shape hg
    exact ⟨g1, by simp [steps, h1], hs, ha⟩
  | succ n ih =>
    obtain ⟨g1, h1, ⟨wf1, hw1, hh1⟩, _⟩ := updateGrid_shape hg
    obtain ⟨g2, h2, ⟨wf2, hw2, hh2⟩, ha2⟩ := ih wf1
    refine ⟨g2, ?_, ⟨wf2, hw2.trans hw1, hh2.trans hh1⟩, ha2⟩
    rw [steps, h1]
    exact h2

theorem count_set_add (l : List Bool) (i : Nat) (v : Bool) (h : i < l.length) :
    (l.set i v).count true + b2n (l.getD i false) = l.count true + b2n v := by
  induction l generalizing i with
  | nil => simp at h
  | cons a l ih =>
    cases i with
    | zero => cases a <;> cases v <;> simp [b2n, List.count_cons]
    | succ i =>
      have := ih i (by simpa using h)
      simp only [List.set_cons_succ, List.count_cons, List.getD_cons_succ] at this ⊢
      omega


theorem getD_dead {l : List Bool} (h : ∀ b ∈ l, b = false) (i : Nat) :
    l.getD i false = false := by
  by_cases hi : i < l.length
  · rw [List.getD_eq_getElem l false hi]
    exact h _ (List.getElem_mem hi)
  · rw [List.getD_eq_default]
    omega

theorem liveAt_dead {g : Grid} (h : ∀ b ∈ g.state, b = false) (x y : Int) :
    liveAt g x y = false := by
  unfold liveAt
  split
  · exact getD_dead h _
  · rfl

theorem nxt_dead {g : Grid} (h : ∀ b ∈ g.state, b = false) (x y : Int) :
    nxt g x y = false := by
  simp [nxt, mooreCount, liveAt_dead h, b2n, conwayRule]

theorem updateGrid_dead {g : Grid} (hg : WellFormed g) (h : ∀ b ∈ g.state, b = false) :
    ∃ g1, updateGrid g = some g1 ∧ SameShape g g1 ∧ ∀ b ∈ g1.state, b = false := by
  obtain ⟨g1, h1, hw, hh, hb, hl, ha, hcells⟩ := updateGrid_spec hg
  obtain ⟨g2, h2, hs, _⟩ := updateGrid_shape hg
  have he : g2 = g1 := by rw [h1] at h2; exact (Option.some.inj h2).symm
  subst he
  refine ⟨g2, h1, hs, ?_⟩
  intro b hb
  obtain ⟨i, hi, rfl⟩ := List.getElem_of_mem hb
  have hlt : (i : Int) < g.width * g.height := by
    have : (g2.state.length : Int) = g.width * g.height := by rw [hl, hg.2.2.2]
    omega
  obtain ⟨x, y, hr, hxy⟩ := index_surj hg.1 (Int.natCast_nonneg i) hlt
  have hrd := hcells x y hr
  rw [hxy, nxt_dead h, rd_of_lt (Int.natCast_nonneg i) (by omega), Int.toNat_ofNat,
    List.getD_eq_getElem _ _ hi] at hrd
  exact Option.some.inj hrd

theorem steps_dead (n : Nat) {g : Grid} (hg : WellFormed g) (h : ∀ b ∈ g.state, b = false) :
    ∃ g1, steps n g = some g1 ∧ SameShape g g1 ∧ ∀ b ∈ g1.state, b = false := by
  induction n generalizing g with
  | zero => exact ⟨g, rfl, ⟨hg, rfl, rfl⟩, h⟩
  | succ n ih =>
    obtain ⟨g1, h1, ⟨wf1, hw1, hh1⟩, hd1⟩ := updateGrid_dead hg h
    obtain ⟨g2, h2, ⟨wf2, hw2, hh2⟩, hd2⟩ := ih wf1 hd1
    refine ⟨g2, ?_, ⟨wf2, hw2.trans hw1, hh2.trans hh1⟩, hd2⟩
    rw [steps, h1]
    exact h2

theorem mooreOffsets_eq : mooreOffsets =
    [(-1, -1), (-1, 0), (-1, 1), (0, -1), (0, 1), (1, -1), (1, 0), (1, 1)] := by
  decide

theorem ite_eq_b2n (b : Bool) : (if b = true then 1 else 0) = b2n b := rfl

theorem planeCount_liveAt (g : Grid) (x y : Int) :
    planeCount (liveAt g) x y = mooreCount g x y := by
  unfold planeCount mooreCount
  rw [mooreOffsets_eq]
  simp only [List.countP_cons, List.countP_nil, ite_eq_b2n, Int.add_zero, Int.sub_eq_add_neg]
  omega

theorem planeStep_liveAt (g : Grid) (x y : Int) :
    planeStep (liveAt g) x y = nxt g x y := by
  unfold planeStep nxt conwayRule
  rw [planeCount_liveAt]
  cases liveAt g x y <;> by_cases h2 : mooreCount g x y = 2 <;>
    by_cases h3 : mooreCount g x y = 3 <;> simp [h2, h3]

theorem conwayRule_iff (cur : Bool) (n : Nat) :
    conwayRule cur n = true ↔ (cur = true ∧ (n = 2 ∨ n = 3)) ∨ (cur = false ∧ n = 3) := by
  cases cur <;> simp [conwayRule]

theorem getCell_after {g g1 : Grid} (hw : g1.width = g.width) (hh : g1.height = g.height)
    {x y : Int} (hr : inRange g x y) : getCell g1 x y = rd g1.state (g.width * y + x) := by
  have hr1 : inRange g1 x y := by unfold inRange; rw [hw, hh]; exact hr
  rw [getCell_inRange hr1, hw]


/-! ## The claims -/

/-- C1: for every well-formed grid and every in-range cell `(x, y)`,
`updateGrid` returns, and the front-buffer value of `(x, y)` afterwards is
alive iff the cell was alive with 2 or 3 live neighbours or dead with exactly
3, the neighbours being the eight Moore neighbours in the front buffer before
the step, with every neighbour off the rectangle dead. -/
theorem updateGrid_conway (g : Grid) (x y : Int) (hg : WellFormed g) (hr : inRange g x y) :
    ∃ g1, updateGrid g = some g1 ∧ ∃ b, getCell g1 x y = some b ∧
      (b = true ↔ (liveAt g x y = true ∧ (mooreCount g x y = 2 ∨ mooreCount g x y = 3)) ∨
        (liveAt g x y = false ∧ mooreCount g x y = 3)) := by
  obtain ⟨g1, h1, hw, hh, _, _, _, hcells⟩ := updateGrid_spec hg
  refine ⟨g1, h1, nxt g x y, ?_, conwayRule_iff _ _⟩
  rw [getCell_after hw hh hr]
  exact hcells x y hr

/-- Instance of C1 on the 3 x 3 grid with the middle row alive, at the cell
`(1, 0)` above the row. -/
theorem updateGrid_conway_witness :
    WellFormed rowGrid ∧ inRange rowGrid 1 0 ∧
    ∃ g1, updateGrid rowGrid = some g1 ∧ ∃ b, getCell g1 1 0 = some b ∧
      (b = true ↔
        (liveAt rowGrid 1 0 = true ∧ (mooreCount rowGrid 1 0 = 2 ∨ mooreCount rowGrid 1 0 = 3)) ∨
        (liveAt rowGrid 1 0 = false ∧ mooreCount rowGrid 1 0 = 3)) :=
  ⟨by decide, by decide, updateGrid_conway rowGrid 1 0 (by decide) (by decide)⟩

/-- C2: for every well-formed grid, whatever its counter holds, `updateGrid`
returns a grid whose counter `alive` is the number of `true` entries of its
front buffer. -/
theorem updateGrid_alive_count (g : Grid) (hg : WellFormed g) :
    ∃ g1, updateGrid g = some g1 ∧ g1.alive = g1.state.count true := by
  obtain ⟨g1, h1, _, ha⟩ := updateGrid_shape hg
  exact ⟨g1, h1, ha⟩

/-- Instance of C2 on the 3 x 3 grid with the middle row alive and a stale
counter of 77. -/
theorem updateGrid_alive_count_witness :
    WellFormed rowGrid ∧ ∃ g1, updateGrid rowGrid = some g1 ∧ g1.alive = g1.state.count true :=
  ⟨by decide, updateGrid_alive_count rowGrid (by decide)⟩

/-- C3: for every well-formed grid whose boundary cells are all dead, one
`updateGrid` step gives every interior cell the value that one generation of
Life on the unbounded plane gives it, started from the live cells of the grid
with everything off the rectangle dead. -/
theorem updateGrid_refines_plane (g : Grid) (x y : Int) (hg : WellFormed g)
    (_hdead : ∀ a b : Int, inRange g a b →
      (a = 0 ∨ a = g.width - 1 ∨ b = 0 ∨ b = g.height - 1) → liveAt g a b = false)
    (hx : 0 < x ∧ x < g.width - 1) (hy : 0 < y ∧ y < g.height - 1) :
    ∃ g1, updateGrid g = some g1 ∧ getCell g1 x y = some (planeStep (liveAt g) x y) := by
  obtain ⟨g1, h1, hw, hh, _, _, _, hcells⟩ := updateGrid_spec hg
  have hr : inRange g x y := ⟨by omega, by omega, by omega, by omega⟩
  refine ⟨g1, h1, ?_⟩
  rw [getCell_after hw hh hr, planeStep_liveAt]
  exact hcells x y hr

/-- Instance of C3 on the 4 x 4 grid with the 2 x 2 block in the interior, at
the interior cell `(1, 2)`. -/
theorem updateGrid_refines_plane_witness :
    WellFormed blockGrid ∧
    (∀ a b : Int, inRange blockGrid a b →
      (a = 0 ∨ a = blockGrid.width - 1 ∨ b = 0 ∨ b = blockGrid.height - 1) →
        liveAt blockGrid a b = false) ∧
    ((0 : Int) < 1 ∧ (1 : Int) < blockGrid.width - 1) ∧
    ((0 : Int) < 2 ∧ (2 : Int) < blockGrid.height - 1) ∧
    ∃ g1, updateGrid blockGrid = some g1 ∧
      getCell g1 1 2 = some (planeStep (liveAt blockGrid) 1 2) :=
  have hdead : ∀ a b : Int, inRange blockGrid a b →
      (a = 0 ∨ a = blockGrid.width - 1 ∨ b = 0 ∨ b = blockGrid.height - 1) →
        liveAt blockGrid a b = false := by
    intro a b hr hb
    obtain ⟨ha0, ha1, hb0, hb1⟩ := hr
    have ha2 : a < 4 := ha1
    have hb2 : b < 4 := hb1
    have hb3 : a = 0 ∨ a = 3 ∨ b = 0 ∨ b = 3 := by
      rcases hb with h | h | h | h
      · exact Or.inl h
      · exact Or.inr (Or.inl (by rw [h]; decide))
      · exact Or.inr (Or.inr (Or.inl h))
      · exact Or.inr (Or.inr (Or.inr (by rw [h]; decide)))
    interval_cases a <;> interval_cases b <;> first | decide | (exfalso; omega)
  ⟨by decide, hdead, by decide, by decide,
    updateGrid_refines_plane blockGrid 1 2 (by decide) hdead (by decide) (by decide)⟩

/-- C4: for every well-formed grid whose front buffer is all dead and every
`n`, `n` applications of `updateGrid` return a grid of the same dimensions
whose front buffer is all dead, whatever the back buffer held. -/
theorem steps_all_dead (g : Grid) (n : Nat) (hg : WellFormed g)
    (hd : ∀ b ∈ g.state, b = false) :
    ∃ g1, steps n g = some g1 ∧ g1.width = g.width ∧ g1.height = g.height ∧
      g1.state.length = g.state.length ∧ ∀ b ∈ g1.state, b = false := by
  obtain ⟨g1, h1, ⟨wf1, hw, hh⟩, hd1⟩ := steps_dead n hg hd
  refine ⟨g1, h1, hw, hh, ?_, hd1⟩
  have : (g1.state.length : Int) = (g.state.length : Int) := by
    rw [wf1.2.2.1, hg.2.2.1, hw, hh]
  exact_mod_cast this

/-- Instance of C4 on the 2 x 2 grid with a dead front buffer and a live back
buffer, for five steps. -/
theorem steps_all_dead_witness :
    WellFormed deadGrid ∧ (∀ b ∈ deadGrid.state, b = false) ∧
    ∃ g1, steps 5 deadGrid = some g1 ∧ g1.width = deadGrid.width ∧
      g1.height = deadGrid.height ∧ g1.state.length = deadGrid.state.length ∧
      ∀ b ∈ g1.state, b = false :=
  ⟨by decide, by decide, steps_all_dead deadGrid 5 (by decide) (by decide)⟩


/-- C5: for every well-formed grid, in-range `(x, y)` and `v`, `setCell`
returns a grid in which `getCell` at `(x, y)` is `v` and `getCell` at every
other in-range cell is what it was; width, height and the back buffer are
unchanged; the write lands at linear index `width * y + x`, and in-range cells
with that index are `(x, y)` itself. -/
theorem setCell_frame (g : Grid) (x y : Int) (v : Bool) (hg : WellFormed g)
    (hr : inRange g x y) :
    ∃ g1, setCell g x y v = some g1 ∧ getCell g1 x y = some v ∧
      (∀ x1 y1 : Int, inRange g x1 y1 → (x1, y1) ≠ (x, y) →
        getCell g1 x1 y1 = getCell g x1 y1) ∧
      g1.width = g.width ∧ g1.height = g.height ∧ g1.stateBuffer = g.stateBuffer ∧
      g1.state = g.state.set (g.width * y + x).toNat v ∧
      (∀ x1 y1 : Int, inRange g x1 y1 → g.width * y1 + x1 = g.width * y + x →
        (x1, y1) = (x, y)) := by
  have hb := index_bounds hr.1 hr.2.1 hr.2.2.1 hr.2.2.2
  have hlt : g.width * y + x < (g.state.length : Int) := by rw [hg.2.2.1]; exact hb.2
  refine ⟨_, setCell_inRange hg hr v, ?_, ?_, rfl, rfl, rfl, rfl, ?_⟩
  · rw [@getCell_after g { g with state := g.state.set (g.width * y + x).toNat v }
      rfl rfl x y hr]
    exact rd_set_self v hb.1 hlt
  · intro x1 y1 hr1 hne
    rw [@getCell_after g { g with state := g.state.set (g.width * y + x).toNat v }
      rfl rfl x1 y1 hr1, getCell_inRange hr1]
    have hb1 := index_bounds hr1.1 hr1.2.1 hr1.2.2.1 hr1.2.2.2
    apply rd_set_ne v hb.1 hb1.1
    intro heq
    have hxy := index_inj hr.1 hr.2.1 hr1.1 hr1.2.1 heq
    exact hne (by rw [hxy.1, hxy.2])
  · intro x1 y1 hr1 heq
    have hxy := index_inj hr1.1 hr1.2.1 hr.1 hr.2.1 heq
    rw [hxy.1, hxy.2]

/-- Instance of C5 on the 3 x 3 grid with the middle row alive, setting the
cell `(2, 0)` alive. -/
theorem setCell_frame_witness :
    WellFormed rowGrid ∧ inRange rowGrid 2 0 ∧
    ∃ g1, setCell rowGrid 2 0 true = some g1 ∧ getCell g1 2 0 = some true ∧
      (∀ x1 y1 : Int, inRange rowGrid x1 y1 → (x1, y1) ≠ (2, 0) →
        getCell g1 x1 y1 = getCell rowGrid x1 y1) ∧
      g1.width = rowGrid.width ∧ g1.height = rowGrid.height ∧
      g1.stateBuffer = rowGrid.stateBuffer ∧
      g1.state = rowGrid.state.set (rowGrid.width * 0 + 2).toNat true ∧
      (∀ x1 y1 : Int, inRange rowGrid x1 y1 →
        rowGrid.width * y1 + x1 = rowGrid.width * 0 + 2 → (x1, y1) = (2, 0)) :=
  ⟨by decide, by decide, setCell_frame rowGrid 2 0 true (by decide) (by decide)⟩

/-- C6: for every grid, every coordinate pair off the rectangle (negative
values included) and every `v`, `setCell` returns the grid it was given: both
buffers, width, height and counter are unchanged. -/
theorem setCell_outRange (g : Grid) (x y : Int) (v : Bool)
    (h : x < 0 ∨ x ≥ g.width ∨ y < 0 ∨ y ≥ g.height) : setCell g x y v = some g := by
  apply setCell_outRange_eq
  unfold inRange
  omega

/-- Instance of C6 on the 3 x 3 grid with the middle row alive, at the
coordinates `(-1, 7)`. -/
theorem setCell_outRange_witness :
    ((-1 : Int) < 0 ∨ (-1 : Int) ≥ rowGrid.width ∨ (7 : Int) < 0 ∨ (7 : Int) ≥ rowGrid.height) ∧
    setCell rowGrid (-1) 7 true = some rowGrid :=
  ⟨by decide, setCell_outRange rowGrid (-1) 7 true (by decide)⟩

/-- C7 (the code departs from the claim): on the 1 x 1 grid `getIndex` is `-1`
at `(-1, 0)`, at `(1, 0)` and at `(0, 1)`, and `getCell` reads the front buffer
at that index, outside the buffer, where `setCell` returns without an access. -/
theorem getCell_outRange_reads_outside :
    getIndex unitGrid (-1) 0 = -1 ∧ getCell unitGrid (-1) 0 = none ∧
    getCell unitGrid 1 0 = none ∧ getCell unitGrid 0 1 = none ∧
    setCell unitGrid (-1) 0 true = some unitGrid := by
  decide

/-- C8, as stated, fails: on the 1 x 1 grid with its cell dead and a counter
of 0 (equal to the number of live cells), `setCell(0, 0, true)` leaves the
counter at 0 with one live cell in the front buffer. -/
theorem setCell_counter_stale :
    WellFormed unitGrid ∧ unitGrid.alive = unitGrid.state.count true ∧ inRange unitGrid 0 0 ∧
    ∃ g1, setCell unitGrid 0 0 true = some g1 ∧ g1.alive = 0 ∧ g1.state.count true = 1 ∧
      g1.alive ≠ g1.state.count true := by
  refine ⟨by decide, by decide, by decide, ⟨[true], [false], 1, 1, 0⟩, by decide, by decide,
    by decide, by decide⟩

/-- C8, amended: `setCell` never changes the counter. For every well-formed
grid and in-range `(x, y)`, after `setCell(x, y, v)` the counter is what it
was, while the number of live cells of the front buffer has gone up by one if a
dead cell was set alive and down by one if a live cell was set dead; and after
any sequence of edits followed by at least one `updateGrid` the counter equals
the number of live cells of the front buffer. -/
theorem setCell_counter (g : Grid) (hg : WellFormed g) :
    (∀ (x y : Int) (v : Bool), inRange g x y →
      ∃ g1, setCell g x y v = some g1 ∧ g1.alive = g.alive ∧
        g1.state.count true + b2n (liveAt g x y) = g.state.count true + b2n v) ∧
    (∀ (es : List (Int × Int × Bool)) (n : Nat),
      ∃ g1 g2, applyEdits es g = some g1 ∧ steps (n + 1) g1 = some g2 ∧
        g2.alive = g2.state.count true) := by
  constructor
  · intro x y v hr
    have hb := index_bounds hr.1 hr.2.1 hr.2.2.1 hr.2.2.2
    have hlt : (g.width * y + x).toNat < g.state.length := by
      have := hg.2.2.1
      omega
    refine ⟨_, setCell_inRange hg hr v, rfl, ?_⟩
    have := count_set_add g.state (g.width * y + x).toNat v hlt
    unfold liveAt
    rw [if_pos hr]
    exact this
  · intro es n
    obtain ⟨g1, h1, ⟨wf1, _, _⟩, _⟩ := applyEdits_shape es hg
    obtain ⟨g2, h2, _, ha⟩ := steps_succ_spec n wf1
    exact ⟨g1, g2, h1, h2, ha⟩

/-- Instance of the amended C8 on the 1 x 1 grid with its cell dead. -/
theorem setCell_counter_witness :
    WellFormed unitGrid ∧
    (∀ (x y : Int) (v : Bool), inRange unitGrid x y →
      ∃ g1, setCell unitGrid x y v = some g1 ∧ g1.alive = unitGrid.alive ∧
        g1.state.count true + b2n (liveAt unitGrid x y) = unitGrid.state.count true + b2n v) ∧
    (∀ (es : List (Int × Int × Bool)) (n : Nat),
      ∃ g1 g2, applyEdits es unitGrid = some g1 ∧ steps (n + 1) g1 = some g2 ∧
        g2.alive = g2.state.count true) :=
  ⟨by decide, setCell_counter unitGrid (by decide)⟩

/-- C9, as stated, fails: on the 2 x 2 grid with every cell alive and a
counter of 4, `initEmpty` returns a grid whose front buffer is all dead and
whose counter is still 4. -/
theorem initEmpty_counter_stale :
    WellFormed fullGrid ∧ fullGrid.alive = fullGrid.state.count true ∧
    ∃ g1, initEmpty fullGrid = some g1 ∧ g1.state = [false, false, false, false] ∧
      g1.alive = 4 ∧ g1.alive ≠ 0 := by
  refine ⟨by decide, by decide,
    ⟨[false, false, false, false], [false, false, false, false], 2, 2, 4⟩,
    by decide, by decide, by decide, by decide⟩

/-- C9, amended: for every well-formed grid, whatever its buffers and counter
hold, `initEmpty` returns a grid of the same dimensions in which every in-range
cell of the front buffer is dead and the counter keeps the value it had before
the call. -/
theorem initEmpty_clears (g : Grid) (hg : WellFormed g) :
    ∃ g1, initEmpty g = some g1 ∧ g1.width = g.width ∧ g1.height = g.height ∧
      (∀ x y : Int, inRange g x y → getCell g1 x y = some false) ∧ g1.alive = g.alive := by
  obtain ⟨g1, h1, ⟨_, hw, hh⟩, ha, hcells⟩ := initEmpty_spec hg
  refine ⟨g1, h1, hw, hh, ?_, ha⟩
  intro x y hr
  rw [getCell_after hw hh hr]
  exact hcells x y hr

/-- Instance of the amended C9 on the 2 x 2 grid with every cell alive and a
counter of 4. -/
theorem initEmpty_clears_witness :
    WellFormed fullGrid ∧
    ∃ g1, initEmpty fullGrid = some g1 ∧ g1.width = fullGrid.width ∧
      g1.height = fullGrid.height ∧
      (∀ x y : Int, inRange fullGrid x y → getCell g1 x y = some false) ∧
      g1.alive = fullGrid.alive :=
  ⟨by decide, initEmpty_clears fullGrid (by decide)⟩

/-- Safety of the operations on well-formed grids: well-formedness (both
buffers of `width * height` cells) with the same width and height is preserved
by `initEmpty`, `initRandom`, `setCell`, `updateGrid`, `swapBuffers` and
`copyBuffer`, and on a well-formed grid `initEmpty`, `copyBuffer`, `updateGrid`,
`setCell` (at any coordinates), `countCellNeighbours` (at any coordinates) and
`nextCellState` (at the in-range cells `updateGrid` calls it on) return a
result: none of their buffer accesses is outside `[0, width * height)`, where
a read or a write fails. -/
theorem wellFormed_preserved (g : Grid) (hg : WellFormed g) :
    (∃ g1, initEmpty g = some g1 ∧ SameShape g g1) ∧
    (∀ rand : Nat → Nat, ∃ g1, initRandom rand g = some g1 ∧ SameShape g g1) ∧
    (∀ (x y : Int) (v : Bool), ∃ g1, setCell g x y v = some g1 ∧ SameShape g g1) ∧
    (∃ g1, updateGrid g = some g1 ∧ SameShape g g1) ∧
    SameShape g (swapBuffers g) ∧
    (∃ g1, copyBuffer g = some g1 ∧ SameShape g g1) ∧
    (∀ x y : Int, ∃ n, countCellNeighbours g x y = some n) ∧
    (∀ x y : Int, inRange g x y → ∃ b, nextCellState g x y = some b) := by
  refine ⟨?_, ?_, ?_, ?_, swapBuffers_shape hg, copyBuffer_shape hg, ?_, ?_⟩
  · obtain ⟨g1, h1, hs, _⟩ := initEmpty_spec hg
    exact ⟨g1, h1, hs⟩
  · intro rand
    obtain ⟨g1, h1, hs, _⟩ := initRandom_spec rand hg
    exact ⟨g1, h1, hs⟩
  · intro x y v
    obtain ⟨g1, h1, hs, _⟩ := setCell_shape hg x y v
    exact ⟨g1, h1, hs⟩
  · obtain ⟨g1, h1, hs, _⟩ := updateGrid_shape hg
    exact ⟨g1, h1, hs⟩
  · intro x y
    exact ⟨_, countCellNeighbours_eq hg.2.2.1 x y⟩
  · intro x y hr
    exact ⟨_, nextCellState_eq hg.2.2.1 hr⟩

/-- Instance of the safety of the operations on the 3 x 3 grid with the middle
row alive. -/
theorem wellFormed_preserved_witness :
    WellFormed rowGrid ∧
    (∃ g1, initEmpty rowGrid = some g1 ∧ SameShape rowGrid g1) ∧
    (∀ rand : Nat → Nat, ∃ g1, initRandom rand rowGrid = some g1 ∧ SameShape rowGrid g1) ∧
    (∀ (x y : Int) (v : Bool), ∃ g1, setCell rowGrid x y v = some g1 ∧ SameShape rowGrid g1) ∧
    (∃ g1, updateGrid rowGrid = some g1 ∧ SameShape rowGrid g1) ∧
    SameShape rowGrid (swapBuffers rowGrid) ∧
    (∃ g1, copyBuffer rowGrid = some g1 ∧ SameShape rowGrid g1) ∧
    (∀ x y : Int, ∃ n, countCellNeighbours rowGrid x y = some n) ∧
    (∀ x y : Int, inRange rowGrid x y → ∃ b, nextCellState rowGrid x y = some b) :=
  ⟨by decide, wellFormed_preserved rowGrid (by decide)⟩

theorem nxt_eq_stepPred (g : Grid) (a b : Int) : nxt g a b = stepPred (liveAt g) a b := rfl

theorem liveAt_of_rd {g : Grid} {a b : Int} {v : Bool} (hr : inRange g a b)
    (h : rd g.state (g.width * b + a) = some v) : liveAt g a b = v := by
  have hb := index_bounds hr.1 hr.2.1 hr.2.2.1 hr.2.2.2
  unfold liveAt
  rw [if_pos hr]
  unfold rd at h
  rw [if_neg (by omega)] at h
  simp [List.getD, h]

theorem liveAt_updateGrid {g g1 : Grid} (hg : WellFormed g) (h : updateGrid g = some g1)
    (a b : Int) : liveAt g1 a b = (decide (inRange g a b) && nxt g a b) := by
  obtain ⟨g2, h2, hw, hh, _, _, _, hcells⟩ := updateGrid_spec hg
  have he : g2 = g1 := by rw [h] at h2; exact (Option.some.inj h2).symm
  subst he
  by_cases hr : inRange g a b
  · have hr2 : inRange g2 a b := by unfold inRange; rw [hw, hh]; exact hr
    have := hcells a b hr
    rw [← hw] at this
    rw [liveAt_of_rd hr2 this]
    simp [hr]
  · have hr2 : ¬ inRange g2 a b := by unfold inRange; rw [hw, hh]; exact hr
    rw [liveAt_outRange hr2]
    simp [hr]

theorem liveAt_congr {g t : Grid} (h1 : t.state = g.state) (h2 : t.width = g.width)
    (h3 : t.height = g.height) (a b : Int) : liveAt t a b = liveAt g a b := by
  simp only [liveAt, inRange, h1, h2, h3]

theorem glider_gen_step (n : Nat) (hn : n < 4) :
    ∀ i < 20, ∀ j < 20, stepPred (hasCell (gliderGen n)) ((i : Nat) : Int) ((j : Nat) : Int)
      = hasCell (gliderGen (n + 1)) ((i : Nat) : Int) ((j : Nat) : Int) := by
  interval_cases n <;> decide


theorem hasCell_iff (cells : List (Int × Int)) (a b : Int) :
    hasCell cells a b = true ↔ (a, b) ∈ cells := by
  simp [hasCell]

theorem bool_eq_of_iff {p q : Bool} (h : p = true ↔ q = true) : p = q := by
  cases p <;> cases q <;> simp_all

theorem gliderGen_inRange (n : Nat) (a b : Int) (h : hasCell (gliderGen n) a b = true) :
    0 ≤ a ∧ a < 20 ∧ 0 ≤ b ∧ b < 20 := by
  rw [hasCell_iff] at h
  rcases n with _ | _ | _ | _ | n <;> simp [gliderGen] at h <;> omega

theorem glider_step {g : Grid} (hg : WellFormed g) (hw : g.width = 20) (hh : g.height = 20)
    (n : Nat) (hn : n < 4) (hlive : ∀ a b : Int, liveAt g a b = hasCell (gliderGen n) a b) :
    ∃ g1, updateGrid g = some g1 ∧ WellFormed g1 ∧ g1.width = 20 ∧ g1.height = 20 ∧
      ∀ a b : Int, liveAt g1 a b = hasCell (gliderGen (n + 1)) a b := by
  obtain ⟨g1, h1, ⟨wf1, hw1, hh1⟩, _⟩ := updateGrid_shape hg
  refine ⟨g1, h1, wf1, hw1.trans hw, hh1.trans hh, ?_⟩
  intro a b
  have hfun : liveAt g = hasCell (gliderGen n) := funext fun a => funext fun b => hlive a b
  rw [liveAt_updateGrid hg h1, nxt_eq_stepPred, hfun]
  by_cases hr : inRange g a b
  · obtain ⟨ha0, ha1, hb0, hb1⟩ := hr
    rw [hw] at ha1
    rw [hh] at hb1
    have hr : inRange g a b := ⟨ha0, by omega, hb0, by omega⟩
    have key := glider_gen_step n hn a.toNat (by omega) b.toNat (by omega)
    rw [Int.toNat_of_nonneg ha0, Int.toNat_of_nonneg hb0] at key
    simp [hr, key]
  · have : hasCell (gliderGen (n + 1)) a b = false := by
      cases hc : hasCell (gliderGen (n + 1)) a b
      · rfl
      · exfalso
        have := gliderGen_inRange (n + 1) a b hc
        apply hr
        unfold inRange
        rw [hw, hh]
        exact this
    simp [hr, this]

theorem glider_four_steps {g : Grid} (hg : WellFormed g) (hw : g.width = 20)
    (hh : g.height = 20) (hlive : ∀ a b : Int, liveAt g a b = hasCell (gliderGen 0) a b) :
    ∃ g4, steps 4 g = some g4 ∧ ∀ a b : Int, liveAt g4 a b = hasCell (gliderGen 4) a b := by
  obtain ⟨g1, h1, wf1, hw1, hh1, hl1⟩ := glider_step hg hw hh 0 (by omega) hlive
  obtain ⟨g2, h2, wf2, hw2, hh2, hl2⟩ := glider_step wf1 hw1 hh1 1 (by omega) hl1
  obtain ⟨g3, h3, wf3, hw3, hh3, hl3⟩ := glider_step wf2 hw2 hh2 2 (by omega) hl2
  obtain ⟨g4, h4, _, _, _, hl4⟩ := glider_step wf3 hw3 hh3 3 (by omega) hl3
  refine ⟨g4, ?_, hl4⟩
  simp [steps, h1, h2, h3, h4]

theorem bool_eq_false_of_not {p : Bool} (h : ¬ p = true) : p = false := by
  cases p <;> simp_all

theorem blinker_h_to_v {g : Grid} {x y : Int}
    (hlive : ∀ a b : Int, liveAt g a b = true ↔ (b = y ∧ (a = x - 1 ∨ a = x ∨ a = x + 1)))
    (a b : Int) : nxt g a b = true ↔ (a = x ∧ (b = y - 1 ∨ b = y ∨ b = y + 1)) := by
  have hin : ∀ a b : Int, (b = y ∧ x - 1 ≤ a ∧ a ≤ x + 1) → liveAt g a b = true := by
    intro a b h
    rw [hlive]
    omega
  have hout : ∀ a b : Int, (b ≠ y ∨ a < x - 1 ∨ x + 1 < a) → liveAt g a b = false := by
    intro a b h
    apply bool_eq_false_of_not
    rw [hlive]
    omega
  have ha : a ≤ x - 3 ∨ a = x - 2 ∨ a = x - 1 ∨ a = x ∨ a = x + 1 ∨ a = x + 2 ∨ x + 3 ≤ a := by
    omega
  have hb : b ≤ y - 2 ∨ b = y - 1 ∨ b = y ∨ b = y + 1 ∨ y + 2 ≤ b := by omega
  rcases ha with ha | ha | ha | ha | ha | ha | ha <;>
    rcases hb with hb | hb | hb | hb | hb <;>
    simp (disch := omega) only [nxt, mooreCount, hin, hout] <;>
    simp [conwayRule, b2n] <;> omega


theorem blinker_v_to_h {g : Grid} {x y : Int}
    (hlive : ∀ a b : Int, liveAt g a b = true ↔ (a = x ∧ (b = y - 1 ∨ b = y ∨ b = y + 1)))
    (a b : Int) : nxt g a b = true ↔ (b = y ∧ (a = x - 1 ∨ a = x ∨ a = x + 1)) := by
  have hin : ∀ a b : Int, (a = x ∧ y - 1 ≤ b ∧ b ≤ y + 1) → liveAt g a b = true := by
    intro a b h
    rw [hlive]
    omega
  have hout : ∀ a b : Int, (a ≠ x ∨ b < y - 1 ∨ y + 1 < b) → liveAt g a b = false := by
    intro a b h
    apply bool_eq_false_of_not
    rw [hlive]
    omega
  have hb : b ≤ y - 3 ∨ b = y - 2 ∨ b = y - 1 ∨ b = y ∨ b = y + 1 ∨ b = y + 2 ∨ y + 3 ≤ b := by
    omega
  have ha : a ≤ x - 2 ∨ a = x - 1 ∨ a = x ∨ a = x + 1 ∨ x + 2 ≤ a := by omega
  rcases ha with ha | ha | ha | ha | ha <;>
    rcases hb with hb | hb | hb | hb | hb | hb | hb <;>
    simp (disch := omega) only [nxt, mooreCount, hin, hout] <;>
    simp [conwayRule, b2n] <;> omega

theorem block_still {g : Grid} {x y : Int}
    (hlive : ∀ a b : Int, liveAt g a b = true ↔ ((a = x ∨ a = x + 1) ∧ (b = y ∨ b = y + 1)))
    (a b : Int) : nxt g a b = true ↔ ((a = x ∨ a = x + 1) ∧ (b = y ∨ b = y + 1)) := by
  have hin : ∀ a b : Int, (x ≤ a ∧ a ≤ x + 1 ∧ y ≤ b ∧ b ≤ y + 1) → liveAt g a b = true := by
    intro a b h
    rw [hlive]
    omega
  have hout : ∀ a b : Int, (a < x ∨ x + 1 < a ∨ b < y ∨ y + 1 < b) → liveAt g a b = false := by
    intro a b h
    apply bool_eq_false_of_not
    rw [hlive]
    omega
  have ha : a ≤ x - 2 ∨ a = x - 1 ∨ a = x ∨ a = x + 1 ∨ a = x + 2 ∨ x + 3 ≤ a := by omega
  have hb : b ≤ y - 2 ∨ b = y - 1 ∨ b = y ∨ b = y + 1 ∨ b = y + 2 ∨ y + 3 ≤ b := by omega
  rcases ha with ha | ha | ha | ha | ha | ha <;>
    rcases hb with hb | hb | hb | hb | hb | hb <;>
    simp (disch := omega) only [nxt, mooreCount, hin, hout] <;>
    simp [conwayRule, b2n] <;> omega

theorem lone_cell_dies {g : Grid} {cx cy : Int}
    (hlive : ∀ a b : Int, liveAt g a b = true ↔ (a = cx ∧ b = cy))
    (a b : Int) : nxt g a b = false := by
  have hin : ∀ a b : Int, (a = cx ∧ b = cy) → liveAt g a b = true := by
    intro a b h
    rw [hlive]
    exact h
  have hout : ∀ a b : Int, (a ≠ cx ∨ b ≠ cy) → liveAt g a b = false := by
    intro a b h
    apply bool_eq_false_of_not
    rw [hlive]
    omega
  have ha : a ≤ cx - 2 ∨ a = cx - 1 ∨ a = cx ∨ a = cx + 1 ∨ cx + 2 ≤ a := by omega
  have hb : b ≤ cy - 2 ∨ b = cy - 1 ∨ b = cy ∨ b = cy + 1 ∨ cy + 2 ≤ b := by omega
  rcases ha with ha | ha | ha | ha | ha <;>
    rcases hb with hb | hb | hb | hb | hb <;>
    simp (disch := omega) only [nxt, mooreCount, hin, hout] <;>
    simp [conwayRule, b2n]

theorem isolated_cell_dies {g : Grid} {cx cy : Int}
    (hnb : ∀ a b : Int, ((a ≠ cx ∨ b ≠ cy) ∧ cx - 1 ≤ a ∧ a ≤ cx + 1 ∧ cy - 1 ≤ b ∧ b ≤ cy + 1) →
      liveAt g a b = false) : nxt g cx cy = false := by
  simp (disch := omega) only [nxt, mooreCount, hnb]
  cases liveAt g cx cy <;> simp [conwayRule, b2n]


theorem liveAt_after_iff {g g1 : Grid} (hg : WellFormed g) (h : updateGrid g = some g1)
    (P : Int → Int → Prop) (hP : ∀ a b : Int, nxt g a b = true ↔ P a b)
    (hin : ∀ a b : Int, P a b → inRange g a b) (a b : Int) :
    liveAt g1 a b = true ↔ P a b := by
  rw [liveAt_updateGrid hg h, Bool.and_eq_true, decide_eq_true_iff, hP]
  exact ⟨fun h => h.2, fun h => ⟨hin a b h, h⟩⟩

theorem all_dead_of_liveAt {g : Grid} (hg : WellFormed g)
    (h : ∀ a b : Int, liveAt g a b = false) : ∀ v ∈ g.state, v = false := by
  intro v hv
  obtain ⟨i, hi, rfl⟩ := List.getElem_of_mem hv
  have hlt : (i : Int) < g.width * g.height := by
    have := hg.2.2.1
    omega
  obtain ⟨x, y, hr, hxy⟩ := index_surj hg.1 (Int.natCast_nonneg i) hlt
  have hl := h x y
  unfold liveAt at hl
  rw [if_pos (show inRange g x y from hr), hxy, Int.toNat_ofNat,
    List.getD_eq_getElem _ _ hi] at hl
  exact hl

theorem wellFormed_gridOf (W H : Nat) (cells : List (Int × Int)) :
    WellFormed (gridOf W H cells) := by
  refine ⟨Int.natCast_nonneg W, Int.natCast_nonneg H, ?_, ?_⟩ <;> simp [gridOf]

theorem liveAt_gridOf (W H : Nat) (cells : List (Int × Int)) (a b : Int) :
    liveAt (gridOf W H cells) a b =
      (decide (0 ≤ a ∧ a < (W : Int) ∧ 0 ≤ b ∧ b < (H : Int)) && hasCell cells a b) := by
  by_cases hr : 0 ≤ a ∧ a < (W : Int) ∧ 0 ≤ b ∧ b < (H : Int)
  · have hr1 : inRange (gridOf W H cells) a b := hr
    have hb := index_bounds hr.1 hr.2.1 hr.2.2.1 hr.2.2.2
    have hlt : ((W : Int) * b + a).toNat < W * H := by
      have : (((W * H : Nat)) : Int) = (W : Int) * (H : Int) := by push_cast; ring
      omega
    have hW : (W : Int) ≠ 0 := by omega
    have hmod : ((W : Int) * b + a) % (W : Int) = a := by
      rw [add_comm, Int.add_mul_emod_self_left]
      exact Int.emod_eq_of_lt hr.1 hr.2.1
    have hdiv : ((W : Int) * b + a) / (W : Int) = b := by
      rw [add_comm, Int.add_mul_ediv_left _ _ hW, Int.ediv_eq_zero_of_lt hr.1 hr.2.1]
      simp
    unfold liveAt
    rw [if_pos hr1]
    show ((List.range (W * H)).map _).getD ((W : Int) * b + a).toNat false = _
    rw [List.getD_eq_getElem _ _ (by simpa using hlt)]
    simp only [List.getElem_map, List.getElem_range, Int.toNat_of_nonneg hb.1, hmod, hdiv]
    simp [hr, hasCell]
  · have hr1 : ¬ inRange (gridOf W H cells) a b := hr
    rw [liveAt_outRange hr1]
    simp [hr]


theorem block_steps (n : Nat) {g : Grid} {x y : Int} (hg : WellFormed g)
    (hin : inRange g x y ∧ inRange g (x + 1) (y + 1))
    (hlive : ∀ a b : Int, liveAt g a b = true ↔ ((a = x ∨ a = x + 1) ∧ (b = y ∨ b = y + 1))) :
    ∃ gn, steps n g = some gn ∧ SameShape g gn ∧
      ∀ a b : Int, liveAt gn a b = true ↔ ((a = x ∨ a = x + 1) ∧ (b = y ∨ b = y + 1)) := by
  induction n generalizing g with
  | zero => exact ⟨g, rfl, ⟨hg, rfl, rfl⟩, hlive⟩
  | succ n ih =>
    obtain ⟨g1, h1, ⟨wf1, hw1, hh1⟩, _⟩ := updateGrid_shape hg
    have hl1 := liveAt_after_iff hg h1 _ (block_still hlive) (by
      intro a b hab
      obtain ⟨⟨h1, h2, h3, h4⟩, ⟨h5, h6, h7, h8⟩⟩ := hin
      unfold inRange
      omega)
    have hin1 : inRange g1 x y ∧ inRange g1 (x + 1) (y + 1) := by
      unfold inRange
      rw [hw1, hh1]
      exact hin
    obtain ⟨gn, hn, ⟨wfn, hwn, hhn⟩, hln⟩ := ih wf1 hin1 hl1
    refine ⟨gn, ?_, ⟨wfn, hwn.trans hw1, hhn.trans hh1⟩, hln⟩
    rw [steps, h1]
    exact hn

/-! ## The claims on patterns -/

/-- C11: for every well-formed grid in which the cells `(x-1, y)`, `(x, y)`,
`(x+1, y)`, `(x, y-1)` and `(x, y+1)` are cells of the rectangle, if the live
cells are exactly `(x-1, y)`, `(x, y)`, `(x+1, y)` then `updateGrid` returns a
grid whose live cells are exactly `(x, y-1)`, `(x, y)`, `(x, y+1)`, and a second
`updateGrid` returns a grid whose live cells are exactly the first three
again. -/
theorem blinker_period_two (g : Grid) (x y : Int) (hg : WellFormed g)
    (hin : inRange g (x - 1) y ∧ inRange g x y ∧ inRange g (x + 1) y ∧
      inRange g x (y - 1) ∧ inRange g x (y + 1))
    (hlive : ∀ a b : Int, liveAt g a b = true ↔ (b = y ∧ (a = x - 1 ∨ a = x ∨ a = x + 1))) :
    ∃ g1 g2, updateGrid g = some g1 ∧ updateGrid g1 = some g2 ∧
      (∀ a b : Int, liveAt g1 a b = true ↔ (a = x ∧ (b = y - 1 ∨ b = y ∨ b = y + 1))) ∧
      (∀ a b : Int, liveAt g2 a b = true ↔ (b = y ∧ (a = x - 1 ∨ a = x ∨ a = x + 1))) := by
  obtain ⟨⟨a1, a2, a3, a4⟩, ⟨b1, b2, b3, b4⟩, ⟨c1, c2, c3, c4⟩, ⟨d1, d2, d3, d4⟩,
    ⟨e1, e2, e3, e4⟩⟩ := hin
  obtain ⟨g1, h1, ⟨wf1, hw1, hh1⟩, _⟩ := updateGrid_shape hg
  obtain ⟨g2, h2, _, _⟩ := updateGrid_shape wf1
  have hl1 := liveAt_after_iff hg h1 _ (blinker_h_to_v hlive) (by
    intro a b hab
    unfold inRange
    omega)
  have hl2 := liveAt_after_iff wf1 h2 _ (blinker_v_to_h hl1) (by
    intro a b hab
    unfold inRange
    rw [hw1, hh1]
    omega)
  exact ⟨g1, g2, h1, h2, hl1, hl2⟩

/-- Instance of C11: the 10 x 10 grid obtained from the empty one by
`set(4,5)`, `set(5,5)`, `set(6,5)`, with `(x, y) = (5, 5)`. -/
theorem blinker_period_two_witness :
    applyEdits [(4, 5, true), (5, 5, true), (6, 5, true)] (gridOf 10 10 []) =
      some (gridOf 10 10 [(4, 5), (5, 5), (6, 5)]) ∧
    WellFormed (gridOf 10 10 [(4, 5), (5, 5), (6, 5)]) ∧
    (inRange (gridOf 10 10 [(4, 5), (5, 5), (6, 5)]) (5 - 1) 5 ∧
      inRange (gridOf 10 10 [(4, 5), (5, 5), (6, 5)]) 5 5 ∧
      inRange (gridOf 10 10 [(4, 5), (5, 5), (6, 5)]) (5 + 1) 5 ∧
      inRange (gridOf 10 10 [(4, 5), (5, 5), (6, 5)]) 5 (5 - 1) ∧
      inRange (gridOf 10 10 [(4, 5), (5, 5), (6, 5)]) 5 (5 + 1)) ∧
    (∀ a b : Int, liveAt (gridOf 10 10 [(4, 5), (5, 5), (6, 5)]) a b = true ↔
      (b = 5 ∧ (a = 5 - 1 ∨ a = 5 ∨ a = 5 + 1))) ∧
    ∃ g1 g2, updateGrid (gridOf 10 10 [(4, 5), (5, 5), (6, 5)]) = some g1 ∧
      updateGrid g1 = some g2 ∧
      (∀ a b : Int, liveAt g1 a b = true ↔ (a = 5 ∧ (b = 5 - 1 ∨ b = 5 ∨ b = 5 + 1))) ∧
      (∀ a b : Int, liveAt g2 a b = true ↔ (b = 5 ∧ (a = 5 - 1 ∨ a = 5 ∨ a = 5 + 1))) :=
  have hlive : ∀ a b : Int, liveAt (gridOf 10 10 [(4, 5), (5, 5), (6, 5)]) a b = true ↔
      (b = 5 ∧ (a = 5 - 1 ∨ a = 5 ∨ a = 5 + 1)) := by
    intro a b
    rw [liveAt_gridOf]
    simp [hasCell]
    omega
  ⟨by decide, wellFormed_gridOf _ _ _, by decide, hlive,
    blinker_period_two _ 5 5 (wellFormed_gridOf _ _ _) (by decide) hlive⟩

/-- C12: for every well-formed grid in which the 2 x 2 block with corner
`(x, y)` lies in the rectangle, if the live cells are exactly the four cells of
the block then for every `n`, `n` applications of `updateGrid` return a grid
whose live cells are exactly the same four cells. -/
theorem block_still_life (g : Grid) (x y : Int) (n : Nat) (hg : WellFormed g)
    (hin : inRange g x y ∧ inRange g (x + 1) (y + 1))
    (hlive : ∀ a b : Int, liveAt g a b = true ↔ ((a = x ∨ a = x + 1) ∧ (b = y ∨ b = y + 1))) :
    ∃ gn, steps n g = some gn ∧
      ∀ a b : Int, liveAt gn a b = true ↔ ((a = x ∨ a = x + 1) ∧ (b = y ∨ b = y + 1)) := by
  obtain ⟨gn, hn, _, hln⟩ := block_steps n hg hin hlive
  exact ⟨gn, hn, hln⟩

/-- Instance of C12: the 5 x 5 grid with the block `(1,1), (2,1), (1,2), (2,2)`,
for seven steps. -/
theorem block_still_life_witness :
    WellFormed (gridOf 5 5 [(1, 1), (2, 1), (1, 2), (2, 2)]) ∧
    (inRange (gridOf 5 5 [(1, 1), (2, 1), (1, 2), (2, 2)]) 1 1 ∧
      inRange (gridOf 5 5 [(1, 1), (2, 1), (1, 2), (2, 2)]) (1 + 1) (1 + 1)) ∧
    (∀ a b : Int, liveAt (gridOf 5 5 [(1, 1), (2, 1), (1, 2), (2, 2)]) a b = true ↔
      ((a = 1 ∨ a = 1 + 1) ∧ (b = 1 ∨ b = 1 + 1))) ∧
    ∃ gn, steps 7 (gridOf 5 5 [(1, 1), (2, 1), (1, 2), (2, 2)]) = some gn ∧
      ∀ a b : Int, liveAt gn a b = true ↔ ((a = 1 ∨ a = 1 + 1) ∧ (b = 1 ∨ b = 1 + 1)) :=
  have hlive : ∀ a b : Int, liveAt (gridOf 5 5 [(1, 1), (2, 1), (1, 2), (2, 2)]) a b = true ↔
      ((a = 1 ∨ a = 1 + 1) ∧ (b = 1 ∨ b = 1 + 1)) := by
    intro a b
    rw [liveAt_gridOf]
    simp [hasCell]
    omega
  ⟨wellFormed_gridOf _ _ _, by decide, hlive,
    block_still_life _ 1 1 7 (wellFormed_gridOf _ _ _) (by decide) hlive⟩

/-- C13: on a 20 x 20 grid whose live cells are exactly
`(1,0), (2,1), (0,2), (1,2), (2,2)`, four applications of `updateGrid` return a
grid whose live cells are exactly `(2,1), (3,2), (1,3), (2,3), (3,3)`: the cell
`(a + 1, b + 1)` is alive afterwards iff `(a, b)` was alive at the start,
although the pattern touches the top and left boundary. -/
theorem glider_translates (g : Grid) (hg : WellFormed g) (hw : g.width = 20)
    (hh : g.height = 20)
    (hlive : ∀ a b : Int, liveAt g a b = true ↔
      (a, b) ∈ [((1 : Int), (0 : Int)), (2, 1), (0, 2), (1, 2), (2, 2)]) :
    ∃ g4, steps 4 g = some g4 ∧
      (∀ a b : Int, liveAt g4 a b = true ↔
        (a, b) ∈ [((2 : Int), (1 : Int)), (3, 2), (1, 3), (2, 3), (3, 3)]) ∧
      (∀ a b : Int, liveAt g4 (a + 1) (b + 1) = liveAt g a b) := by
  have h0 : ∀ a b : Int, liveAt g a b = hasCell (gliderGen 0) a b := by
    intro a b
    apply bool_eq_of_iff
    rw [hlive, hasCell_iff]
    rfl
  obtain ⟨g4, h4, hl4⟩ := glider_four_steps hg hw hh h0
  refine ⟨g4, h4, ?_, ?_⟩
  · intro a b
    rw [hl4, hasCell_iff]
    rfl
  · intro a b
    apply bool_eq_of_iff
    rw [hl4, hasCell_iff, hlive]
    simp only [gliderGen, List.mem_cons, Prod.mk.injEq, List.mem_singleton, List.mem_nil_iff,
      or_false]
    omega

/-- Instance of C13: the 20 x 20 grid with the glider, a dead back buffer and
a counter of 0. -/
theorem glider_translates_witness :
    WellFormed (gridOf 20 20 [(1, 0), (2, 1), (0, 2), (1, 2), (2, 2)]) ∧
    (gridOf 20 20 [(1, 0), (2, 1), (0, 2), (1, 2), (2, 2)]).width = 20 ∧
    (gridOf 20 20 [(1, 0), (2, 1), (0, 2), (1, 2), (2, 2)]).height = 20 ∧
    (∀ a b : Int, liveAt (gridOf 20 20 [(1, 0), (2, 1), (0, 2), (1, 2), (2, 2)]) a b = true ↔
      (a, b) ∈ [((1 : Int), (0 : Int)), (2, 1), (0, 2), (1, 2), (2, 2)]) ∧
    ∃ g4, steps 4 (gridOf 20 20 [(1, 0), (2, 1), (0, 2), (1, 2), (2, 2)]) = some g4 ∧
      (∀ a b : Int, liveAt g4 a b = true ↔
        (a, b) ∈ [((2 : Int), (1 : Int)), (3, 2), (1, 3), (2, 3), (3, 3)]) ∧
      (∀ a b : Int, liveAt g4 (a + 1) (b + 1) =
        liveAt (gridOf 20 20 [(1, 0), (2, 1), (0, 2), (1, 2), (2, 2)]) a b) :=
  have hlive : ∀ a b : Int,
      liveAt (gridOf 20 20 [(1, 0), (2, 1), (0, 2), (1, 2), (2, 2)]) a b = true ↔
      (a, b) ∈ [((1 : Int), (0 : Int)), (2, 1), (0, 2), (1, 2), (2, 2)] := by
    intro a b
    rw [liveAt_gridOf]
    simp [hasCell]
    omega
  ⟨wellFormed_gridOf _ _ _, rfl, rfl, hlive,
    glider_translates _ (wellFormed_gridOf _ _ _) rfl rfl hlive⟩

/-- C14: for every well-formed grid with `width, height ≥ 1` and each of its
four corners `c` that is alive, `updateGrid` returns a grid in which `c` is dead
if none of the in-range neighbours of `c` was alive, and whose front buffer is
all dead if `c` was the only live cell. -/
theorem corner_extinction (g : Grid) (cx cy : Int) (hg : WellFormed g)
    (_hW : 1 ≤ g.width) (_hH : 1 ≤ g.height)
    (hc : (cx = 0 ∨ cx = g.width - 1) ∧ (cy = 0 ∨ cy = g.height - 1))
    (halive : liveAt g cx cy = true) :
    ∃ g1, updateGrid g = some g1 ∧
      ((∀ a b : Int, inRange g a b → (a ≠ cx ∨ b ≠ cy) →
          (cx - 1 ≤ a ∧ a ≤ cx + 1 ∧ cy - 1 ≤ b ∧ b ≤ cy + 1) → liveAt g a b = false) →
        getCell g1 cx cy = some false) ∧
      ((∀ a b : Int, liveAt g a b = true → (a = cx ∧ b = cy)) →
        (∀ a b : Int, liveAt g1 a b = false) ∧ ∀ v ∈ g1.state, v = false) := by
  obtain ⟨g1, h1, hw, hh, _, _, _, hcells⟩ := updateGrid_spec hg
  obtain ⟨g2, h2, ⟨wf1, _, _⟩, _⟩ := updateGrid_shape hg
  have he : g2 = g1 := by rw [h1] at h2; exact (Option.some.inj h2).symm
  subst he
  have hrc : inRange g cx cy := by
    unfold inRange
    omega
  refine ⟨g2, h1, ?_, ?_⟩
  · intro hnb
    rw [getCell_after hw hh hrc, hcells cx cy hrc]
    have : nxt g cx cy = false := by
      apply isolated_cell_dies
      intro a b hab
      by_cases hr : inRange g a b
      · exact hnb a b hr hab.1 hab.2
      · exact liveAt_outRange hr
    rw [this]
  · intro honly
    have hlive : ∀ a b : Int, liveAt g a b = true ↔ (a = cx ∧ b = cy) := by
      intro a b
      constructor
      · exact honly a b
      · intro hab
        rw [hab.1, hab.2]
        exact halive
    have hdead : ∀ a b : Int, liveAt g2 a b = false := by
      intro a b
      rw [liveAt_updateGrid hg h1, lone_cell_dies hlive]
      simp
    exact ⟨hdead, all_dead_of_liveAt wf1 hdead⟩

/-- Instance of C14: on the 5 x 5 grid with the single live cell `(0, 0)`, the
corner is dead and the grid is all dead after one step. -/
theorem corner_extinction_witness :
    WellFormed (gridOf 5 5 [(0, 0)]) ∧ 1 ≤ (gridOf 5 5 [(0, 0)]).width ∧
    1 ≤ (gridOf 5 5 [(0, 0)]).height ∧
    (((0 : Int) = 0 ∨ (0 : Int) = (gridOf 5 5 [(0, 0)]).width - 1) ∧
      ((0 : Int) = 0 ∨ (0 : Int) = (gridOf 5 5 [(0, 0)]).height - 1)) ∧
    liveAt (gridOf 5 5 [(0, 0)]) 0 0 = true ∧
    (∀ a b : Int, liveAt (gridOf 5 5 [(0, 0)]) a b = true → (a = 0 ∧ b = 0)) ∧
    ∃ g1, updateGrid (gridOf 5 5 [(0, 0)]) = some g1 ∧ getCell g1 0 0 = some false ∧
      (∀ a b : Int, liveAt g1 a b = false) ∧ ∀ v ∈ g1.state, v = false := by
  have honly : ∀ a b : Int, liveAt (gridOf 5 5 [(0, 0)]) a b = true → (a = 0 ∧ b = 0) := by
    intro a b h
    rw [liveAt_gridOf] at h
    simp [hasCell] at h
    exact h.2
  obtain ⟨g1, h1, hp1, hp2⟩ := corner_extinction (gridOf 5 5 [(0, 0)]) 0 0
    (wellFormed_gridOf _ _ _) (by decide) (by decide) (by decide) (by decide)
  refine ⟨wellFormed_gridOf _ _ _, by decide, by decide, by decide, by decide, honly,
    g1, h1, hp1 ?_, hp2 honly⟩
  intro a b _ hne _
  cases hl : liveAt (gridOf 5 5 [(0, 0)]) a b
  · rfl
  · exfalso
    have := honly a b hl
    omega

/-! ## The double buffer and the mirror symmetries -/

theorem index_mod_div {W a b : Int} (ha0 : 0 ≤ a) (ha : a < W) :
    (W * b + a) % W = a ∧ (W * b + a) / W = b := by
  have hW : W ≠ 0 := by omega
  constructor
  · rw [add_comm, Int.add_mul_emod_self_left]
    exact Int.emod_eq_of_lt ha0 ha
  · rw [add_comm, Int.add_mul_ediv_left _ _ hW, Int.ediv_eq_zero_of_lt ha0 ha]
    simp

theorem liveAt_raster {g t : Grid} (hg : WellFormed g) (p : Int → Int → Bool)
    (hs : t.state = (List.range g.state.length).map (fun (i : Nat) =>
      p ((i : Int) % g.width) ((i : Int) / g.width)))
    (hw : t.width = g.width) (hh : t.height = g.height) (a b : Int) :
    liveAt t a b = (decide (inRange g a b) && p a b) := by
  by_cases hr : inRange g a b
  · have hrt : inRange t a b := by unfold inRange; rw [hw, hh]; exact hr
    have hb := index_bounds hr.1 hr.2.1 hr.2.2.1 hr.2.2.2
    have hlt : (g.width * b + a).toNat < g.state.length := by
      have := hg.2.2.1
      omega
    have hmd := index_mod_div (b := b) hr.1 hr.2.1
    unfold liveAt
    rw [if_pos hrt, hs, hw, List.getD_eq_getElem _ _ (by simpa using hlt)]
    simp only [List.getElem_map, List.getElem_range, Int.toNat_of_nonneg hb.1, hmd.1, hmd.2]
    simp [hr]
  · have hrt : ¬ inRange t a b := by unfold inRange; rw [hw, hh]; exact hr
    rw [liveAt_outRange hrt]
    simp [hr]

theorem wellFormed_mirrorX {g : Grid} (hg : WellFormed g) : WellFormed (mirrorX g) := by
  refine ⟨hg.1, hg.2.1, ?_, hg.2.2.2⟩
  show (((List.range g.state.length).map _).length : Int) = _
  rw [List.length_map, List.length_range]
  exact hg.2.2.1

theorem wellFormed_mirrorY {g : Grid} (hg : WellFormed g) : WellFormed (mirrorY g) := by
  refine ⟨hg.1, hg.2.1, ?_, hg.2.2.2⟩
  show (((List.range g.state.length).map _).length : Int) = _
  rw [List.length_map, List.length_range]
  exact hg.2.2.1

theorem liveAt_mirrorX {g : Grid} (hg : WellFormed g) (a b : Int) :
    liveAt (mirrorX g) a b = liveAt g (g.width - 1 - a) b := by
  rw [@liveAt_raster g (mirrorX g) hg (fun a b => liveAt g (g.width - 1 - a) b) rfl rfl rfl]
  by_cases hr : inRange g a b
  · simp [hr]
  · have : ¬ inRange g (g.width - 1 - a) b := by
      unfold inRange at hr ⊢
      omega
    simp [hr, liveAt_outRange this]

theorem liveAt_mirrorY {g : Grid} (hg : WellFormed g) (a b : Int) :
    liveAt (mirrorY g) a b = liveAt g a (g.height - 1 - b) := by
  rw [@liveAt_raster g (mirrorY g) hg (fun a b => liveAt g a (g.height - 1 - b)) rfl rfl rfl]
  by_cases hr : inRange g a b
  · simp [hr]
  · have : ¬ inRange g a (g.height - 1 - b) := by
      unfold inRange at hr ⊢
      omega
    simp [hr, liveAt_outRange this]

theorem state_eq_of_liveAt {g t : Grid} (hg : WellFormed g) (ht : WellFormed t)
    (hw : t.width = g.width) (hh : t.height = g.height)
    (h : ∀ a b : Int, liveAt t a b = liveAt g a b) : t.state = g.state := by
  have hlen : t.state.length = g.state.length := by
    have h1 := hg.2.2.1
    have h2 := ht.2.2.1
    rw [hw, hh] at h2
    omega
  apply List.ext_getElem hlen
  intro i hi1 hi2
  have hlt : (i : Int) < g.width * g.height := by
    have := hg.2.2.1
    omega
  obtain ⟨x, y, hr, hxy⟩ := index_surj hg.1 (Int.natCast_nonneg i) hlt
  have hl := h x y
  have hrt : inRange t x y := by unfold inRange; rw [hw, hh]; exact hr
  unfold liveAt at hl
  rw [if_pos hrt, if_pos (show inRange g x y from hr), hw, hxy, Int.toNat_ofNat,
    List.getD_eq_getElem _ _ hi1, List.getD_eq_getElem _ _ hi2] at hl
  exact hl

theorem nxt_mirrorX {g m : Grid} (h : ∀ a b : Int, liveAt m a b = liveAt g (g.width - 1 - a) b)
    (a b : Int) : nxt m a b = nxt g (g.width - 1 - a) b := by
  have e1 : g.width - 1 - (a - 1) = g.width - 1 - a + 1 := by ring
  have e2 : g.width - 1 - (a + 1) = g.width - 1 - a - 1 := by ring
  have hc : mooreCount m a b = mooreCount g (g.width - 1 - a) b := by
    simp only [mooreCount, h, e1, e2]
    omega
  unfold nxt
  rw [hc, h]

theorem nxt_mirrorY {g m : Grid} (h : ∀ a b : Int, liveAt m a b = liveAt g a (g.height - 1 - b))
    (a b : Int) : nxt m a b = nxt g a (g.height - 1 - b) := by
  have e1 : g.height - 1 - (b - 1) = g.height - 1 - b + 1 := by ring
  have e2 : g.height - 1 - (b + 1) = g.height - 1 - b - 1 := by ring
  have hc : mooreCount m a b = mooreCount g a (g.height - 1 - b) := by
    simp only [mooreCount, h, e1, e2]
    omega
  unfold nxt
  rw [hc, h]


theorem count_eq_sum (l : List Bool) :
    l.count true = ∑ i ∈ Finset.range l.length, b2n (l.getD i false) := by
  induction l with
  | nil => simp
  | cons a l ih =>
    rw [List.length_cons, Finset.sum_range_succ', List.count_cons, ih]
    simp only [List.getD_cons_succ, List.getD_cons_zero]
    cases a <;> simp [b2n]

theorem sum_raster (W H : Nat) (f : Nat → Nat) :
    ∑ i ∈ Finset.range (W * H), f i =
      ∑ y ∈ Finset.range H, ∑ x ∈ Finset.range W, f (W * y + x) := by
  induction H with
  | zero => simp
  | succ H ih =>
    rw [Nat.mul_succ, Finset.sum_range_add, ih, Finset.sum_range_succ]

theorem count_eq_cells {g : Grid} (hg : WellFormed g) {W H : Nat} (hW : g.width = (W : Int))
    (hH : g.height = (H : Int)) :
    g.state.count true =
      ∑ y ∈ Finset.range H, ∑ x ∈ Finset.range W, b2n (liveAt g (x : Int) (y : Int)) := by
  have hlen : g.state.length = W * H := by
    have := hg.2.2.1
    rw [hW, hH] at this
    exact_mod_cast this
  rw [count_eq_sum, hlen, sum_raster]
  apply Finset.sum_congr rfl
  intro y hy
  apply Finset.sum_congr rfl
  intro x hx
  rw [Finset.mem_range] at hx hy
  have hr : inRange g (x : Int) (y : Int) := by
    unfold inRange
    omega
  unfold liveAt
  rw [if_pos hr, hW]
  congr 2

theorem count_mirrorX {g m : Grid} (hg : WellFormed g) (hm : WellFormed m)
    (hw : m.width = g.width) (hh : m.height = g.height)
    (h : ∀ a b : Int, liveAt m a b = liveAt g (g.width - 1 - a) b) :
    m.state.count true = g.state.count true := by
  have hW : g.width = (g.width.toNat : Int) := (Int.toNat_of_nonneg hg.1).symm
  have hH : g.height = (g.height.toNat : Int) := (Int.toNat_of_nonneg hg.2.1).symm
  rw [count_eq_cells hg hW hH, count_eq_cells hm (hw.trans hW) (hh.trans hH)]
  apply Finset.sum_congr rfl
  intro y _
  rw [← Finset.sum_range_reflect (fun x => b2n (liveAt g (x : Int) (y : Int)))]
  apply Finset.sum_congr rfl
  intro x hx
  rw [Finset.mem_range] at hx
  rw [h]
  congr 2
  omega

theorem count_mirrorY {g m : Grid} (hg : WellFormed g) (hm : WellFormed m)
    (hw : m.width = g.width) (hh : m.height = g.height)
    (h : ∀ a b : Int, liveAt m a b = liveAt g a (g.height - 1 - b)) :
    m.state.count true = g.state.count true := by
  have hW : g.width = (g.width.toNat : Int) := (Int.toNat_of_nonneg hg.1).symm
  have hH : g.height = (g.height.toNat : Int) := (Int.toNat_of_nonneg hg.2.1).symm
  rw [count_eq_cells hg hW hH, count_eq_cells hm (hw.trans hW) (hh.trans hH)]
  rw [← Finset.sum_range_reflect
    (fun y => ∑ x ∈ Finset.range g.width.toNat, b2n (liveAt g (x : Int) (y : Int)))]
  apply Finset.sum_congr rfl
  intro y hy
  rw [Finset.mem_range] at hy
  apply Finset.sum_congr rfl
  intro x _
  rw [h]
  congr 2
  omega

theorem mirrorX_step {g m : Grid} (hg : WellFormed g) (hm : WellFormed m)
    (hw : m.width = g.width) (hh : m.height = g.height)
    (h : ∀ a b : Int, liveAt m a b = liveAt g (g.width - 1 - a) b)
    {g1 m1 : Grid} (h1 : updateGrid g = some g1) (h2 : updateGrid m = some m1) (a b : Int) :
    liveAt m1 a b = liveAt g1 (g.width - 1 - a) b := by
  rw [liveAt_updateGrid hm h2, liveAt_updateGrid hg h1, nxt_mirrorX h]
  congr 1
  apply decide_eq_decide.mpr
  unfold inRange
  omega

theorem mirrorY_step {g m : Grid} (hg : WellFormed g) (hm : WellFormed m)
    (hw : m.width = g.width) (hh : m.height = g.height)
    (h : ∀ a b : Int, liveAt m a b = liveAt g a (g.height - 1 - b))
    {g1 m1 : Grid} (h1 : updateGrid g = some g1) (h2 : updateGrid m = some m1) (a b : Int) :
    liveAt m1 a b = liveAt g1 a (g.height - 1 - b) := by
  rw [liveAt_updateGrid hm h2, liveAt_updateGrid hg h1, nxt_mirrorY h]
  congr 1
  apply decide_eq_decide.mpr
  unfold inRange
  omega

theorem updateCell_writes_back {x y : Int} {t t1 : Grid} (h : updateCell x y t = some t1) :
    t1.state = t.state ∧ t1.width = t.width ∧ t1.height = t.height ∧
      ∃ v, t1.stateBuffer = t.stateBuffer.set (getIndex t x y).toNat v := by
  simp only [updateCell, Option.bind_eq_bind, Option.bind_eq_some, pure, Option.some.injEq] at h
  obtain ⟨v, _, buf, hbuf, rfl⟩ := h
  refine ⟨rfl, rfl, rfl, v, ?_⟩
  unfold wr at hbuf
  split at hbuf
  · exact (Option.some.inj hbuf).symm
  · exact absurd hbuf (by simp)

theorem updateGrid_scan {g g1 : Grid} (h : updateGrid g = some g1) :
    ∃ t, forLoop g.height (fun y t1 => forLoop t1.width (fun x t2 => updateCell x y t2) t1)
        { g with alive := 0 } = some t ∧ g1 = swapBuffers t := by
  simp only [updateGrid, Option.bind_eq_bind, Option.bind_eq_some, pure, Option.some.injEq] at h
  obtain ⟨t, ht, rfl⟩ := h
  exact ⟨t, ht, rfl⟩

/-! ## The claims on the double buffer and the symmetries -/

/-- C20: for every well-formed grid `g`, the step commutes with the two mirror
symmetries: the front buffer of `updateGrid (mirrorX g)` is the front buffer
of `mirrorX (updateGrid g)`, likewise for `mirrorY`, and the counter after the
step is the same for `g`, `mirrorX g` and `mirrorY g`. -/
theorem updateGrid_mirror (g : Grid) (hg : WellFormed g) :
    ∃ g1 mx1 my1, updateGrid g = some g1 ∧ updateGrid (mirrorX g) = some mx1 ∧
      updateGrid (mirrorY g) = some my1 ∧
      mx1.state = (mirrorX g1).state ∧ my1.state = (mirrorY g1).state ∧
      mx1.alive = g1.alive ∧ my1.alive = g1.alive := by
  obtain ⟨g1, h1, ⟨wf1, hw1, hh1⟩, ha1⟩ := updateGrid_shape hg
  obtain ⟨mx1, hx1, ⟨wfx1, hwx1, hhx1⟩, hax1⟩ := updateGrid_shape (wellFormed_mirrorX hg)
  obtain ⟨my1, hy1, ⟨wfy1, hwy1, hhy1⟩, hay1⟩ := updateGrid_shape (wellFormed_mirrorY hg)
  have hwx : mx1.width = g.width := hwx1
  have hhx : mx1.height = g.height := hhx1
  have hwy : my1.width = g.width := hwy1
  have hhy : my1.height = g.height := hhy1
  have hlx : ∀ a b : Int, liveAt mx1 a b = liveAt g1 (g1.width - 1 - a) b := by
    intro a b
    rw [hw1]
    exact mirrorX_step hg (wellFormed_mirrorX hg) rfl rfl (liveAt_mirrorX hg) h1 hx1 a b
  have hly : ∀ a b : Int, liveAt my1 a b = liveAt g1 a (g1.height - 1 - b) := by
    intro a b
    rw [hh1]
    exact mirrorY_step hg (wellFormed_mirrorY hg) rfl rfl (liveAt_mirrorY hg) h1 hy1 a b
  refine ⟨g1, mx1, my1, h1, hx1, hy1, ?_, ?_, ?_, ?_⟩
  · apply state_eq_of_liveAt (wellFormed_mirrorX wf1) wfx1 (hwx.trans hw1.symm)
      (hhx.trans hh1.symm)
    intro a b
    rw [hlx, liveAt_mirrorX wf1]
  · apply state_eq_of_liveAt (wellFormed_mirrorY wf1) wfy1 (hwy.trans hw1.symm)
      (hhy.trans hh1.symm)
    intro a b
    rw [hly, liveAt_mirrorY wf1]
  · rw [hax1, ha1]
    exact count_mirrorX wf1 wfx1 (hwx.trans hw1.symm) (hhx.trans hh1.symm) hlx
  · rw [hay1, ha1]
    exact count_mirrorY wf1 wfy1 (hwy.trans hw1.symm) (hhy.trans hh1.symm) hly

/-- Instance of C20 on the 4 x 3 grid with live cells `(0,0), (1,0), (1,1)`,
whose mirror images have live cells `(3,0), (2,0), (2,1)` and
`(0,2), (1,2), (1,1)`. -/
theorem updateGrid_mirror_witness :
    WellFormed (gridOf 4 3 [(0, 0), (1, 0), (1, 1)]) ∧
    (mirrorX (gridOf 4 3 [(0, 0), (1, 0), (1, 1)])).state =
      (gridOf 4 3 [(3, 0), (2, 0), (2, 1)]).state ∧
    (mirrorY (gridOf 4 3 [(0, 0), (1, 0), (1, 1)])).state =
      (gridOf 4 3 [(0, 2), (1, 2), (1, 1)]).state ∧
    ∃ g1 mx1 my1, updateGrid (gridOf 4 3 [(0, 0), (1, 0), (1, 1)]) = some g1 ∧
      updateGrid (mirrorX (gridOf 4 3 [(0, 0), (1, 0), (1, 1)])) = some mx1 ∧
      updateGrid (mirrorY (gridOf 4 3 [(0, 0), (1, 0), (1, 1)])) = some my1 ∧
      mx1.state = (mirrorX g1).state ∧ my1.state = (mirrorY g1).state ∧
      mx1.alive = g1.alive ∧ my1.alive = g1.alive :=
  ⟨wellFormed_gridOf _ _ _, by decide, by decide,
    updateGrid_mirror _ (wellFormed_gridOf _ _ _)⟩

/-! ## The double buffer on the heap -/

theorem load_store_same (h : Heap) (p : Block) (l : List Bool) : (h.store p l).load p = l := by
  cases p <;> rfl

theorem load_store_ne (h : Heap) {p q : Block} (hne : q ≠ p) (l : List Bool) :
    (h.store p l).load q = h.load q := by
  cases p <;> cases q <;> first | rfl | exact absurd rfl hne

theorem updateCellPtr_spec {x y : Int} {s s1 : Heap × PtrGrid}
    (hne : s.2.state ≠ s.2.stateBuffer) (h : updateCellPtr x y s = some s1) :
    s1.1.load s.2.state = s.1.load s.2.state ∧ s1.2.state = s.2.state ∧
      s1.2.stateBuffer = s.2.stateBuffer ∧ s1.2.width = s.2.width ∧ s1.2.height = s.2.height ∧
      ∃ v, s1.1 = s.1.store s.2.stateBuffer
        ((s.1.load s.2.stateBuffer).set (getIndex (view s) x y).toNat v) := by
  simp only [updateCellPtr, Option.bind_eq_bind, Option.bind_eq_some, pure,
    Option.some.injEq] at h
  obtain ⟨v, _, buf, hbuf, rfl⟩ := h
  have hb : buf = (s.1.load s.2.stateBuffer).set (getIndex (view s) x y).toNat v := by
    unfold wr at hbuf
    split at hbuf
    · exact (Option.some.inj hbuf).symm
    · exact absurd hbuf (by simp)
  refine ⟨load_store_ne _ hne _, rfl, rfl, rfl, rfl, v, ?_⟩
  rw [hb]

theorem updateCellPtr_sim {x y : Int} {s : Heap × PtrGrid} (hne : s.2.state ≠ s.2.stateBuffer) :
    (updateCellPtr x y s).map view = updateCell x y (view s) := by
  simp only [updateCellPtr, updateCell, Option.bind_eq_bind, pure]
  cases hn : nextCellState (view s) x y with
  | none => simp
  | some v =>
    simp only [Option.some_bind]
    show (Option.map view ((wr (s.1.load s.2.stateBuffer) (getIndex (view s) x y) v).bind _)) =
      (wr (s.1.load s.2.stateBuffer) (getIndex (view s) x y) v).bind _
    cases hw : wr (s.1.load s.2.stateBuffer) (getIndex (view s) x y) v with
    | none => simp
    | some buf =>
      simp only [Option.some_bind, Option.map_some']
      congr 1
      simp only [view, load_store_same, load_store_ne _ hne]

theorem forLoop_sim {σ τ : Type} (f : σ → τ) (I : σ → Prop) (b1 : Int → σ → Option σ)
    (b2 : Int → τ → Option τ) (hsim : ∀ i s, I s → (b1 i s).map f = b2 i (f s))
    (hI : ∀ i s s1, I s → b1 i s = some s1 → I s1) (n : Int) (s : σ) (hs : I s) :
    (forLoop n b1 s).map f = forLoop n b2 (f s) ∧ ∀ s1, forLoop n b1 s = some s1 → I s1 := by
  unfold forLoop
  generalize List.range n.toNat = l
  induction l generalizing s with
  | nil =>
    refine ⟨rfl, ?_⟩
    intro s1 h1
    have : s = s1 := Option.some.inj h1
    rw [← this]
    exact hs
  | cons i l ih =>
    simp only [List.foldlM_cons, Option.bind_eq_bind]
    have h0 := hsim (i : Int) s hs
    cases hb : b1 (i : Int) s with
    | none =>
      rw [hb] at h0
      simp only [Option.map_none'] at h0
      rw [← h0]
      simp
    | some s1 =>
      rw [hb] at h0
      simp only [Option.map_some'] at h0
      rw [← h0]
      simp only [Option.some_bind]
      exact ih s1 (hI (i : Int) s s1 hs hb)


theorem scanPtr_sim {front back : Block} {l : List Bool} {s : Heap × PtrGrid}
    (hs : ScanKeeps front back l s) :
    (scanPtr s).map view =
        forLoop (view s).height
          (fun y t1 => forLoop t1.width (fun x t2 => updateCell x y t2) t1) (view s) ∧
      ∀ s1, scanPtr s = some s1 → ScanKeeps front back l s1 := by
  have hcell_sim : ∀ (y x : Int) (t : Heap × PtrGrid), ScanKeeps front back l t →
      (updateCellPtr x y t).map view = updateCell x y (view t) := by
    intro y x t ht
    apply updateCellPtr_sim
    rw [ht.state_eq, ht.buffer_eq]
    exact ht.distinct
  have hcell_keeps : ∀ (y x : Int) (t t1 : Heap × PtrGrid), ScanKeeps front back l t →
      updateCellPtr x y t = some t1 → ScanKeeps front back l t1 := by
    intro y x t t1 ht h
    have hne : t.2.state ≠ t.2.stateBuffer := by
      rw [ht.state_eq, ht.buffer_eq]
      exact ht.distinct
    obtain ⟨h1, h2, h3, _, _, _⟩ := updateCellPtr_spec hne h
    refine ⟨h2.trans ht.state_eq, h3.trans ht.buffer_eq, ht.distinct, ?_⟩
    rw [← ht.state_eq, h1, ht.state_eq]
    exact ht.front_eq
  have hrow : ∀ (y : Int) (t : Heap × PtrGrid), ScanKeeps front back l t →
      (forLoop t.2.width (fun x t2 => updateCellPtr x y t2) t).map view =
          forLoop (view t).width (fun x t2 => updateCell x y t2) (view t) ∧
        ∀ t1, forLoop t.2.width (fun x t2 => updateCellPtr x y t2) t = some t1 →
          ScanKeeps front back l t1 := by
    intro y t ht
    exact forLoop_sim view (ScanKeeps front back l) (fun x t2 => updateCellPtr x y t2)
      (fun x t2 => updateCell x y t2) (hcell_sim y) (hcell_keeps y) t.2.width t ht
  exact forLoop_sim view (ScanKeeps front back l)
    (fun y s1 => forLoop s1.2.width (fun x s2 => updateCellPtr x y s2) s1)
    (fun y t1 => forLoop t1.width (fun x t2 => updateCell x y t2) t1)
    (fun y t ht => (hrow y t ht).1) (fun y t t1 ht h => (hrow y t ht).2 t1 h) s.2.height s hs

theorem updateGridPtr_spec {h : Heap} {g : PtrGrid} (hne : g.state ≠ g.stateBuffer)
    (hg : WellFormed (view (h, g))) :
    ∃ h1 t, scanPtr (h, { g with alive := 0 }) = some (h1, t) ∧
      t.state = g.state ∧ t.stateBuffer = g.stateBuffer ∧ h1.load g.state = h.load g.state ∧
      updateGridPtr (h, g) = some (h1, swapPointers t) ∧
      updateGrid (view (h, g)) = some (view (h1, swapPointers t)) := by
  have hs : ScanKeeps g.state g.stateBuffer (h.load g.state) (h, { g with alive := 0 }) :=
    ⟨rfl, rfl, hne, rfl⟩
  obtain ⟨hsim, hkeep⟩ := scanPtr_sim hs
  obtain ⟨g1, hg1, _⟩ := updateGrid_shape hg
  obtain ⟨t0, ht0, hswap⟩ := updateGrid_scan hg1
  have hscan : (scanPtr (h, { g with alive := 0 })).map view = some t0 := by
    rw [hsim]
    exact ht0
  cases hres : scanPtr (h, { g with alive := 0 }) with
  | none =>
    rw [hres] at hscan
    exact absurd hscan (by simp)
  | some r =>
    rw [hres] at hscan
    have hv : view r = t0 := Option.some.inj hscan
    have hk := hkeep r hres
    refine ⟨r.1, r.2, rfl, hk.state_eq, hk.buffer_eq, hk.front_eq, ?_, ?_⟩
    · simp only [updateGridPtr, hres, Option.bind_eq_bind, Option.some_bind, pure]
    · rw [hg1, hswap, ← hv]
      rfl


/-- C19: with the two buffers as blocks of a heap and `state`, `stateBuffer`
as pointers to distinct blocks, on a well-formed grid: every cell visit of the
scan of `updateGrid` leaves the block of the front buffer and both pointers as
they are and writes one entry of the block of the back buffer; the scan
returns; `updateGrid` returns the heap the scan left together with the struct
whose two pointers have traded places, so the swap writes no cell of either
block; afterwards the pointer `stateBuffer` is the old pointer `state` and its
block holds the front buffer before the step, element for element, and the
pointer `state` is the old pointer `stateBuffer`. The grid this heap and struct
stand for is the one `updateGrid` returns on lists. -/
theorem updateGrid_double_buffer_heap (h : Heap) (g : PtrGrid)
    (hne : g.state ≠ g.stateBuffer) (hg : WellFormed (view (h, g))) :
    (∀ (x y : Int) (s s1 : Heap × PtrGrid), s.2.state ≠ s.2.stateBuffer →
      updateCellPtr x y s = some s1 →
      s1.1.load s.2.state = s.1.load s.2.state ∧ s1.2.state = s.2.state ∧
      s1.2.stateBuffer = s.2.stateBuffer ∧
      ∃ v, s1.1 = s.1.store s.2.stateBuffer
        ((s.1.load s.2.stateBuffer).set (getIndex (view s) x y).toNat v)) ∧
    ∃ h1 t, scanPtr (h, { g with alive := 0 }) = some (h1, t) ∧
      t.state = g.state ∧ t.stateBuffer = g.stateBuffer ∧ h1.load g.state = h.load g.state ∧
      updateGridPtr (h, g) = some (h1, swapPointers t) ∧
      (swapPointers t).state = g.stateBuffer ∧ (swapPointers t).stateBuffer = g.state ∧
      h1.load (swapPointers t).stateBuffer = h.load g.state ∧
      updateGrid (view (h, g)) = some (view (h1, swapPointers t)) := by
  constructor
  · intro x y s s1 hs hcell
    obtain ⟨h1, h2, h3, _, _, h6⟩ := updateCellPtr_spec hs hcell
    exact ⟨h1, h2, h3, h6⟩
  · obtain ⟨h1, t, hscan, hst, hsb, hfront, hupd, hlist⟩ := updateGridPtr_spec hne hg
    refine ⟨h1, t, hscan, hst, hsb, hfront, hupd, hsb, hst, ?_, hlist⟩
    show h1.load t.state = h.load g.state
    rw [hst]
    exact hfront

/-- Instance of C19: the 3 x 3 grid with the middle row alive in the first
block and a back buffer of live cells in the second. -/
theorem updateGrid_double_buffer_heap_witness :
    (⟨Block.first, Block.second, 3, 3, 77⟩ : PtrGrid).state ≠
      (⟨Block.first, Block.second, 3, 3, 77⟩ : PtrGrid).stateBuffer ∧
    WellFormed (view (⟨rowGrid.state, rowGrid.stateBuffer⟩,
      ⟨Block.first, Block.second, 3, 3, 77⟩)) ∧
    view (⟨rowGrid.state, rowGrid.stateBuffer⟩, ⟨Block.first, Block.second, 3, 3, 77⟩) =
      rowGrid ∧
    ∃ h1 t, scanPtr (⟨rowGrid.state, rowGrid.stateBuffer⟩,
        { (⟨Block.first, Block.second, 3, 3, 77⟩ : PtrGrid) with alive := 0 }) = some (h1, t) ∧
      t.state = Block.first ∧ t.stateBuffer = Block.second ∧
      h1.load Block.first = rowGrid.state ∧
      updateGridPtr (⟨rowGrid.state, rowGrid.stateBuffer⟩,
        ⟨Block.first, Block.second, 3, 3, 77⟩) = some (h1, swapPointers t) ∧
      (swapPointers t).state = Block.second ∧ (swapPointers t).stateBuffer = Block.first ∧
      h1.load (swapPointers t).stateBuffer = rowGrid.state ∧
      updateGrid (view (⟨rowGrid.state, rowGrid.stateBuffer⟩,
        ⟨Block.first, Block.second, 3, 3, 77⟩)) = some (view (h1, swapPointers t)) :=
  ⟨by decide, by decide, by decide,
    (updateGrid_double_buffer_heap ⟨rowGrid.state, rowGrid.stateBuffer⟩
      ⟨Block.first, Block.second, 3, 3, 77⟩ (by decide) (by decide)).2⟩

/-! ## The camera and the frame loop -/

theorem Clamp_mem {v lo hi : ℚ} (h : lo ≤ hi) : lo ≤ Clamp v lo hi ∧ Clamp v lo hi ≤ hi := by
  unfold Clamp
  dsimp only
  split_ifs <;> constructor <;> linarith

theorem Clamp_of_mem {v lo hi : ℚ} (h1 : lo ≤ v) (h2 : v ≤ hi) : Clamp v lo hi = v := by
  unfold Clamp
  dsimp only
  rw [if_neg (not_lt.mpr h1), if_neg (not_lt.mpr h2)]

theorem Clamp_le_of_le {v w lo hi : ℚ} (hvw : v ≤ w) (hlo : lo ≤ w) : Clamp v lo hi ≤ w := by
  unfold Clamp
  dsimp only
  split_ifs <;> linarith

theorem handleMouseZoom_legal (camera : Camera2D) (wheel : ℚ)
    (h : 3 / 10 ≤ camera.zoom ∧ camera.zoom ≤ 15 / 10) :
    3 / 10 ≤ (handleMouseZoom camera wheel).zoom ∧
      (handleMouseZoom camera wheel).zoom ≤ 15 / 10 := by
  unfold handleMouseZoom
  dsimp only
  split_ifs
  · exact Clamp_mem (by norm_num)
  · exact h

theorem cameraRun_legal (inputs : List CameraInput) (camera : Camera2D)
    (h : 3 / 10 ≤ camera.zoom ∧ camera.zoom ≤ 15 / 10) :
    3 / 10 ≤ (cameraRun camera inputs).zoom ∧ (cameraRun camera inputs).zoom ≤ 15 / 10 := by
  induction inputs generalizing camera with
  | nil => exact h
  | cons i rest ih =>
    cases i with
    | scroll dm => exact ih (handleMouseScroll camera dm) h
    | wheel d => exact ih (handleMouseZoom camera d) (handleMouseZoom_legal camera d h)


theorem floor_div_twenty (w : ℚ) : ⌊w / 20⌋ = ⌊w⌋ / 20 := by
  rw [Int.floor_eq_iff]
  have h1 : ((⌊w⌋ : Int) : ℚ) ≤ w := Int.floor_le w
  have h2 : w < ((⌊w⌋ : Int) : ℚ) + 1 := Int.lt_floor_add_one w
  have h3 := Int.emod_add_ediv ⌊w⌋ 20
  have h4 := Int.emod_nonneg ⌊w⌋ (by norm_num : (20 : Int) ≠ 0)
  have h5 := Int.emod_lt_of_pos ⌊w⌋ (by norm_num : (0 : Int) < 20)
  have h6 : ((20 * (⌊w⌋ / 20) : Int) : ℚ) ≤ ((⌊w⌋ : Int) : ℚ) := by
    exact_mod_cast (by omega : 20 * (⌊w⌋ / 20) ≤ ⌊w⌋)
  have h7 : ((⌊w⌋ + 1 : Int) : ℚ) ≤ ((20 * (⌊w⌋ / 20) + 20 : Int) : ℚ) := by
    exact_mod_cast (by omega : ⌊w⌋ + 1 ≤ 20 * (⌊w⌋ / 20) + 20)
  push_cast at h6 h7
  constructor
  · rw [le_div_iff₀ (by norm_num)]
    linarith
  · rw [div_lt_iff₀ (by norm_num)]
    linarith

theorem truncQ_nonneg {q : ℚ} (h : 0 ≤ q) : truncQ q = ⌊q⌋ ∧ 0 ≤ truncQ q := by
  unfold truncQ
  rw [if_pos h]
  exact ⟨rfl, Int.floor_nonneg.mpr h⟩

theorem truncQ_neg {q : ℚ} (h : q < 0) : truncQ q = ⌈q⌉ ∧ truncQ q ≤ 0 := by
  unfold truncQ
  rw [if_neg (not_le.mpr h)]
  refine ⟨rfl, ?_⟩
  rw [Int.ceil_le]
  simpa using h.le

theorem tdiv_cell_nonneg {t : Int} (h : 0 ≤ t) : Int.tdiv t CELL_SIZE = t / 20 :=
  Int.tdiv_eq_ediv h (by decide)

theorem tdiv_cell_nonpos {t : Int} (h : t ≤ 0) : Int.tdiv t CELL_SIZE ≤ 0 := by
  have ht : t = -(-t) := by omega
  rw [ht, Int.neg_tdiv]
  have := Int.tdiv_nonneg (by omega : 0 ≤ -t) (by decide : (0 : Int) ≤ CELL_SIZE)
  omega

theorem handleMouseZoom_nonzero (camera : Camera2D) (d : ℚ) (hd : d ≠ 0) :
    (handleMouseZoom camera d).zoom = Clamp (camera.zoom + d * (1 / 8)) (3 / 10) (15 / 10) := by
  have : d * (1 / 8) ≠ 0 := mul_ne_zero hd (by norm_num)
  simp only [handleMouseZoom, if_pos this]

theorem handleMouseZoom_zero (camera : Camera2D) : handleMouseZoom camera 0 = camera := by
  simp [handleMouseZoom]

/-- C15: for every camera whose zoom is in `[0.3, 1.5]`, as the data model has
it, and every wheel delta `d`, `handleMouseZoom` sets
`zoom := clamp(zoom + d * 0.125, 0.3, 1.5)`; a zero delta leaves the camera as
it is and a negative delta never increases the zoom; and the zoom is in
`[0.3, 1.5]` after every sequence of pans and wheel moves from the initial
camera, whose zoom is 1. -/
theorem handleMouseZoom_clamped (camera : Camera2D)
    (hz : 3 / 10 ≤ camera.zoom ∧ camera.zoom ≤ 15 / 10) :
    (∀ d : ℚ,
      (handleMouseZoom camera d).zoom = Clamp (camera.zoom + d * (1 / 8)) (3 / 10) (15 / 10)) ∧
    handleMouseZoom camera 0 = camera ∧
    (∀ d : ℚ, d < 0 → (handleMouseZoom camera d).zoom ≤ camera.zoom) ∧
    (∀ d : ℚ, 3 / 10 ≤ (handleMouseZoom camera d).zoom ∧
      (handleMouseZoom camera d).zoom ≤ 15 / 10) ∧
    initialCamera.zoom = 1 ∧
    (∀ inputs : List CameraInput,
      3 / 10 ≤ (cameraRun initialCamera inputs).zoom ∧
      (cameraRun initialCamera inputs).zoom ≤ 15 / 10) := by
  refine ⟨?_, handleMouseZoom_zero camera, ?_, fun d => handleMouseZoom_legal camera d hz, rfl,
    ?_⟩
  · intro d
    by_cases hd : d = 0
    · rw [hd, handleMouseZoom_zero, zero_mul, add_zero, Clamp_of_mem hz.1 hz.2]
    · exact handleMouseZoom_nonzero camera d hd
  · intro d hd
    rw [handleMouseZoom_nonzero camera d (ne_of_lt hd)]
    apply Clamp_le_of_le _ hz.1
    have : d * (1 / 8) < 0 := mul_neg_of_neg_of_pos hd (by norm_num)
    linarith
  · intro inputs
    exact cameraRun_legal inputs initialCamera (by norm_num [initialCamera])

/-- Instance of C15 at the initial camera, whose zoom is 1. -/
theorem handleMouseZoom_clamped_witness :
    ((3 / 10 : ℚ) ≤ initialCamera.zoom ∧ initialCamera.zoom ≤ 15 / 10) ∧
    (∀ d : ℚ, (handleMouseZoom initialCamera d).zoom =
      Clamp (initialCamera.zoom + d * (1 / 8)) (3 / 10) (15 / 10)) ∧
    handleMouseZoom initialCamera 0 = initialCamera ∧
    (∀ d : ℚ, d < 0 → (handleMouseZoom initialCamera d).zoom ≤ initialCamera.zoom) ∧
    (∀ d : ℚ, 3 / 10 ≤ (handleMouseZoom initialCamera d).zoom ∧
      (handleMouseZoom initialCamera d).zoom ≤ 15 / 10) ∧
    initialCamera.zoom = 1 ∧
    (∀ inputs : List CameraInput,
      3 / 10 ≤ (cameraRun initialCamera inputs).zoom ∧
      (cameraRun initialCamera inputs).zoom ≤ 15 / 10) :=
  have hz : (3 / 10 : ℚ) ≤ initialCamera.zoom ∧ initialCamera.zoom ≤ 15 / 10 := by
    norm_num [initialCamera]
  ⟨hz, handleMouseZoom_clamped initialCamera hz⟩

/-- C16: for every pointer position and every camera with a zoom in
`[0.3, 1.5]`, `mouseScreenPositionToWorldPosition` returns the pair of the
truncations of the world coordinates `(p - offset) / zoom + target`, each
divided by 20 with the quotient truncated toward zero; a non-negative world
coordinate gives the floor of the coordinate over 20, and a negative one gives
cell 0 or a negative cell. -/
theorem screen_to_cell (camera : Camera2D) (m : Vector2)
    (_hz : 3 / 10 ≤ camera.zoom ∧ camera.zoom ≤ 15 / 10) :
    mouseScreenPositionToWorldPosition camera m =
      (Int.tdiv (truncQ ((m.x - camera.offset.x) / camera.zoom + camera.target.x)) 20,
       Int.tdiv (truncQ ((m.y - camera.offset.y) / camera.zoom + camera.target.y)) 20) ∧
    (∀ q : ℚ, (0 ≤ q → truncQ q = ⌊q⌋) ∧ (q < 0 → truncQ q = ⌈q⌉)) ∧
    (0 ≤ (GetScreenToWorld2D m camera).x →
      (mouseScreenPositionToWorldPosition camera m).1 = ⌊(GetScreenToWorld2D m camera).x / 20⌋) ∧
    (0 ≤ (GetScreenToWorld2D m camera).y →
      (mouseScreenPositionToWorldPosition camera m).2 = ⌊(GetScreenToWorld2D m camera).y / 20⌋) ∧
    ((GetScreenToWorld2D m camera).x < 0 → (mouseScreenPositionToWorldPosition camera m).1 ≤ 0) ∧
    ((GetScreenToWorld2D m camera).y < 0 → (mouseScreenPositionToWorldPosition camera m).2 ≤ 0) := by
  refine ⟨rfl, fun q => ⟨fun h => (truncQ_nonneg h).1, fun h => (truncQ_neg h).1⟩, ?_, ?_, ?_, ?_⟩
  · intro h
    show Int.tdiv (truncQ (GetScreenToWorld2D m camera).x) CELL_SIZE = _
    rw [tdiv_cell_nonneg (truncQ_nonneg h).2, (truncQ_nonneg h).1, floor_div_twenty]
  · intro h
    show Int.tdiv (truncQ (GetScreenToWorld2D m camera).y) CELL_SIZE = _
    rw [tdiv_cell_nonneg (truncQ_nonneg h).2, (truncQ_nonneg h).1, floor_div_twenty]
  · intro h
    exact tdiv_cell_nonpos (truncQ_neg h).2
  · intro h
    exact tdiv_cell_nonpos (truncQ_neg h).2

/-- Instance of C16: with zoom 1, offset `(640, 360)` and target `(640, 360)`
the pointer at `(650, 370)` is over the cell `(32, 18)`. -/
theorem screen_to_cell_witness :
    ((3 / 10 : ℚ) ≤ plainCamera.zoom ∧ plainCamera.zoom ≤ 15 / 10) ∧
    mouseScreenPositionToWorldPosition plainCamera ⟨650, 370⟩ = (32, 18) := by
  have hz : (3 / 10 : ℚ) ≤ plainCamera.zoom ∧ plainCamera.zoom ≤ 15 / 10 := by
    norm_num [plainCamera]
  refine ⟨hz, ?_⟩
  have h := (screen_to_cell plainCamera ⟨650, 370⟩ hz).1
  rw [h]
  simp only [plainCamera]
  norm_num [truncQ]
  decide


theorem frame_paused {i : FrameInput} {s : App} (hg : WellFormed s.grid)
    (hp : s.animationOn = false) (hk : i.keySpace = false) :
    ∃ s1, frame i s = some s1 ∧ WellFormed s1.grid ∧ s1.animationOn = false ∧
      s1.updates = s.updates ∧ s1.timer = s.timer ∧
      ((i.keyR = false ∧ i.keyC = false ∧ i.button0 = false ∧ i.button1 = false) →
        s1.grid = s.grid) := by
  obtain ⟨g1, hg1, wf1, hgu1⟩ : ∃ g1, (if i.keyR then initRandom i.rand s.grid else some s.grid)
      = some g1 ∧ WellFormed g1 ∧ (i.keyR = false → g1 = s.grid) := by
    cases hR : i.keyR
    · exact ⟨s.grid, by simp, hg, fun _ => rfl⟩
    · obtain ⟨g1, h1, ⟨wf1, _, _⟩, _⟩ := initRandom_spec i.rand hg
      exact ⟨g1, by simpa using h1, wf1, fun h => by simp at h⟩
  obtain ⟨g2, hg2, wf2, hgu2⟩ : ∃ g2, (if i.keyC then initEmpty g1 else some g1)
      = some g2 ∧ WellFormed g2 ∧ (i.keyC = false → g2 = g1) := by
    cases hC : i.keyC
    · exact ⟨g1, by simp, wf1, fun _ => rfl⟩
    · obtain ⟨g2, h2, ⟨wf2, _, _⟩, _⟩ := initEmpty_spec wf1
      exact ⟨g2, by simpa using h2, wf2, fun h => by simp at h⟩
  obtain ⟨g3, hg3, wf3, hgu3⟩ : ∃ g3,
      (if i.button0 then
          setCell g2 (mouseScreenPositionToWorldPosition (cameraPhase i s.camera) i.mouse).1
            (mouseScreenPositionToWorldPosition (cameraPhase i s.camera) i.mouse).2 true
        else if i.button1 then
          setCell g2 (mouseScreenPositionToWorldPosition (cameraPhase i s.camera) i.mouse).1
            (mouseScreenPositionToWorldPosition (cameraPhase i s.camera) i.mouse).2 false
        else some g2) = some g3 ∧ WellFormed g3 ∧
      ((i.button0 = false ∧ i.button1 = false) → g3 = g2) := by
    cases hb0 : i.button0
    · cases hb1 : i.button1
      · exact ⟨g2, by simp, wf2, fun _ => rfl⟩
      · obtain ⟨g3, h3, ⟨wf3, _, _⟩, _⟩ := setCell_shape wf2
          (mouseScreenPositionToWorldPosition (cameraPhase i s.camera) i.mouse).1
          (mouseScreenPositionToWorldPosition (cameraPhase i s.camera) i.mouse).2 false
        exact ⟨g3, by simpa using h3, wf3, fun h => by simp at h⟩
    · obtain ⟨g3, h3, ⟨wf3, _, _⟩, _⟩ := setCell_shape wf2
        (mouseScreenPositionToWorldPosition (cameraPhase i s.camera) i.mouse).1
        (mouseScreenPositionToWorldPosition (cameraPhase i s.camera) i.mouse).2 true
      exact ⟨g3, by simpa using h3, wf3, fun h => by simp at h⟩
  refine ⟨{ grid := g3, camera := cameraPhase i s.camera, animationOn := false,
            showHint := if i.keyH then !s.showHint else s.showHint, timer := s.timer,
            updates := s.updates }, ?_, wf3, rfl, rfl, rfl, ?_⟩
  · simp only [frame, keyPhase, stepPhase, pointerPhase, tickPhase, hk, hp, hg1, hg2,
      Option.bind_eq_bind, Option.some_bind, pure, Bool.false_eq_true, if_false, false_and,
      hg3, add_zero]
  · intro h
    show g3 = s.grid
    rw [hgu3 ⟨h.2.2.1, h.2.2.2⟩, hgu2 h.2.1, hgu1 h.1]

theorem runFrames_paused (inputs : List FrameInput) {s : App} (hg : WellFormed s.grid)
    (hp : s.animationOn = false) (hk : ∀ i ∈ inputs, i.keySpace = false) :
    ∃ s1, runFrames inputs s = some s1 ∧ WellFormed s1.grid ∧ s1.animationOn = false ∧
      s1.updates = s.updates ∧ s1.timer = s.timer ∧
      ((∀ i ∈ inputs, i.keyR = false ∧ i.keyC = false ∧ i.button0 = false ∧
          i.button1 = false) → s1.grid = s.grid) := by
  induction inputs generalizing s with
  | nil => exact ⟨s, rfl, hg, hp, rfl, rfl, fun _ => rfl⟩
  | cons i rest ih =>
    obtain ⟨s1, h1, wf1, hp1, hu1, ht1, hgr1⟩ :=
      frame_paused hg hp (hk i (List.mem_cons_self i rest))
    obtain ⟨s2, h2, wf2, hp2, hu2, ht2, hgr2⟩ :=
      ih wf1 hp1 (fun j hj => hk j (List.mem_cons_of_mem i hj))
    refine ⟨s2, ?_, wf2, hp2, hu2.trans hu1, ht2.trans ht1, ?_⟩
    · unfold runFrames at h2 ⊢
      simp only [List.foldlM_cons, h1, Option.bind_eq_bind, Option.some_bind, h2]
    · intro h
      rw [hgr2 (fun j hj => h j (List.mem_cons_of_mem i hj)),
        hgr1 (h i (List.mem_cons_self i rest))]

/-- C17: for every state with a well-formed grid and `animationOn = false` and
every sequence of frames in which Space is never pressed, the frames run,
`updateGrid` is never called (the count of its calls is unchanged) and the
timer keeps its value; if moreover R and C are never pressed and neither the
primary nor the secondary button is held, the grid at the end is the grid at the
start. -/
theorem paused_frames (s : App) (inputs : List FrameInput) (hg : WellFormed s.grid)
    (hp : s.animationOn = false) (hk : ∀ i ∈ inputs, i.keySpace = false) :
    ∃ s1, runFrames inputs s = some s1 ∧ s1.animationOn = false ∧
      s1.updates = s.updates ∧ s1.timer = s.timer ∧
      ((∀ i ∈ inputs, i.keyR = false ∧ i.keyC = false ∧ i.button0 = false ∧
          i.button1 = false) → s1.grid = s.grid) := by
  obtain ⟨s1, h1, _, hp1, hu1, ht1, hgr1⟩ := runFrames_paused inputs hg hp hk
  exact ⟨s1, h1, hp1, hu1, ht1, hgr1⟩


/-- Instance of C17: the 5 x 5 empty grid with `set(2, 2, true)`, paused, then
100 idle frames: no step has run and `(2, 2)` is still alive. -/
theorem paused_frames_witness :
    setCell (gridOf 5 5 []) 2 2 true = some pausedApp.grid ∧
    WellFormed pausedApp.grid ∧ pausedApp.animationOn = false ∧
    (∀ i ∈ List.replicate 100 idleInput, i.keySpace = false) ∧
    ∃ s1, runFrames (List.replicate 100 idleInput) pausedApp = some s1 ∧
      s1.updates = 0 ∧ s1.timer = 0 ∧ s1.grid = pausedApp.grid ∧
      getCell s1.grid 2 2 = some true := by
  have hk : ∀ i ∈ List.replicate 100 idleInput, i.keySpace = false := by
    intro i hi
    rw [(List.mem_replicate.mp hi).2]
    rfl
  obtain ⟨s1, h1, _, hu, ht, hgr⟩ := paused_frames pausedApp (List.replicate 100 idleInput)
    (wellFormed_gridOf _ _ _) rfl hk
  have hgrid : s1.grid = pausedApp.grid := by
    apply hgr
    intro i hi
    rw [(List.mem_replicate.mp hi).2]
    exact ⟨rfl, rfl, rfl, rfl⟩
  refine ⟨by decide, wellFormed_gridOf _ _ _, rfl, hk, s1, h1, hu, ht, hgrid, ?_⟩
  rw [hgrid]
  decide

theorem frame_due {i : FrameInput} {s : App} (hg : WellFormed s.grid)
    (hrun : (if i.keySpace then !s.animationOn else s.animationOn) = true)
    (hR : i.keyR = false) (hC : i.keyC = false) (hdue : s.timer ≥ ANIMATION_FRAME_DELAY)
    (hb : i.button0 = true) :
    ∃ g1 g2 s1, updateGrid s.grid = some g1 ∧
      setCell g1 (mouseScreenPositionToWorldPosition (cameraPhase i s.camera) i.mouse).1
        (mouseScreenPositionToWorldPosition (cameraPhase i s.camera) i.mouse).2 true = some g2 ∧
      frame i s = some s1 ∧ s1.grid = g2 ∧ s1.timer = 1 ∧ s1.updates = s.updates + 1 ∧
      s1.animationOn = true := by
  obtain ⟨g1, h1, ⟨wf1, _, _⟩, _⟩ := updateGrid_shape hg
  obtain ⟨g2, h2, _, _⟩ := setCell_shape wf1
    (mouseScreenPositionToWorldPosition (cameraPhase i s.camera) i.mouse).1
    (mouseScreenPositionToWorldPosition (cameraPhase i s.camera) i.mouse).2 true
  refine ⟨g1, g2, ⟨g2, cameraPhase i s.camera, true,
    (if i.keyH then !s.showHint else s.showHint), 1, s.updates + 1⟩, h1, h2, ?_, rfl, rfl, rfl,
    rfl⟩
  simp only [frame, keyPhase, stepPhase, pointerPhase, tickPhase, hrun, hR, hC, hb, hdue,
    Option.bind_eq_bind, Option.some_bind, pure, Bool.false_eq_true, if_false, if_true,
    and_self, h1, h2]
  rfl

theorem clickInput_cell :
    mouseScreenPositionToWorldPosition (cameraPhase clickInput dueApp.camera) clickInput.mouse
      = (1, 1) := by
  norm_num [mouseScreenPositionToWorldPosition, cameraPhase, clickInput, dueApp, plainCamera,
    handleMouseZoom, GetScreenToWorld2D, truncQ]
  decide

/-- C18, as stated, fails: in the running state with the empty 3 x 3 grid and
timer 15, a frame with the primary button held over the cell `(1, 1)` ends with
`(1, 1)` alive (the step ran on the empty grid, then the edit), while the step
of the edited grid is the empty grid. -/
theorem frame_edit_after_step :
    dueApp.animationOn = true ∧ dueApp.timer ≥ ANIMATION_FRAME_DELAY ∧
    clickInput.button0 = true ∧
    mouseScreenPositionToWorldPosition (cameraPhase clickInput dueApp.camera) clickInput.mouse
      = (1, 1) ∧
    inRange dueApp.grid 1 1 ∧
    ∃ s1 g2, frame clickInput dueApp = some s1 ∧
      (setCell dueApp.grid 1 1 true).bind updateGrid = some g2 ∧
      s1.grid.state = (gridOf 3 3 [(1, 1)]).state ∧ g2.state = (gridOf 3 3 []).state ∧
      s1.grid ≠ g2 := by
  have hcell := clickInput_cell
  obtain ⟨g1, g2, s1, h1, h2, hf, hs1, _⟩ := @frame_due clickInput dueApp
    (wellFormed_gridOf _ _ _) rfl rfl rfl (by decide) rfl
  rw [hcell] at h2
  have e1 : updateGrid dueApp.grid = some ⟨(gridOf 3 3 []).state, (gridOf 3 3 []).state, 3, 3, 0⟩ := by
    decide
  rw [e1] at h1
  have hg1 := (Option.some.inj h1).symm
  subst hg1
  have e2 : setCell ⟨(gridOf 3 3 []).state, (gridOf 3 3 []).state, 3, 3, 0⟩ 1 1 true =
      some ⟨(gridOf 3 3 [(1, 1)]).state, (gridOf 3 3 []).state, 3, 3, 0⟩ := by
    decide
  rw [e2] at h2
  have hg2 := (Option.some.inj h2).symm
  subst hg2
  refine ⟨rfl, by decide, rfl, hcell, by decide, s1, ⟨(gridOf 3 3 []).state,
    (gridOf 3 3 [(1, 1)]).state, 3, 3, 0⟩, hf, by decide, ?_, rfl, ?_⟩
  · rw [hs1]
  · rw [hs1]
    decide

/-- C18, amended: within one frame the generation step runs before the pointer
edit. For every frame in which the simulation is running (after the Space key
of the frame), neither R nor C is pressed, a step is due (the timer has reached
15) and the primary button is held over an in-range cell `c`, the grid at the
end of the frame is `setCell (updateGrid grid) c alive`: the step is computed
from the grid without the edit of the frame, and the edit is applied to the new
generation, in which `c` is then alive. -/
theorem frame_step_before_edit (s : App) (i : FrameInput) (hg : WellFormed s.grid)
    (hrun : (if i.keySpace then !s.animationOn else s.animationOn) = true)
    (hkeys : i.keyR = false ∧ i.keyC = false) (hdue : s.timer ≥ ANIMATION_FRAME_DELAY)
    (hb : i.button0 = true)
    (hc : inRange s.grid
      (mouseScreenPositionToWorldPosition (cameraPhase i s.camera) i.mouse).1
      (mouseScreenPositionToWorldPosition (cameraPhase i s.camera) i.mouse).2) :
    ∃ g1 g2 s1, updateGrid s.grid = some g1 ∧
      setCell g1 (mouseScreenPositionToWorldPosition (cameraPhase i s.camera) i.mouse).1
        (mouseScreenPositionToWorldPosition (cameraPhase i s.camera) i.mouse).2 true = some g2 ∧
      frame i s = some s1 ∧ s1.grid = g2 ∧ s1.updates = s.updates + 1 ∧
      getCell s1.grid (mouseScreenPositionToWorldPosition (cameraPhase i s.camera) i.mouse).1
        (mouseScreenPositionToWorldPosition (cameraPhase i s.camera) i.mouse).2 = some true := by
  obtain ⟨g1, g2, s1, h1, h2, hf, hs1, _, hu, _⟩ := frame_due hg hrun hkeys.1 hkeys.2 hdue hb
  obtain ⟨g1b, h1b, ⟨wf1, hw1, hh1⟩, _⟩ := updateGrid_shape hg
  have he : g1b = g1 := by rw [h1] at h1b; exact (Option.some.inj h1b).symm
  subst he
  have hc1 : inRange g1b
      (mouseScreenPositionToWorldPosition (cameraPhase i s.camera) i.mouse).1
      (mouseScreenPositionToWorldPosition (cameraPhase i s.camera) i.mouse).2 := by
    unfold inRange
    rw [hw1, hh1]
    exact hc
  refine ⟨g1b, g2, s1, h1, h2, hf, hs1, hu, ?_⟩
  rw [hs1]
  have h3 := setCell_inRange wf1 hc1 true
  rw [h2] at h3
  rw [Option.some.inj h3, @getCell_after g1b
    { g1b with state := g1b.state.set (g1b.width *
      (mouseScreenPositionToWorldPosition (cameraPhase i s.camera) i.mouse).2 +
      (mouseScreenPositionToWorldPosition (cameraPhase i s.camera) i.mouse).1).toNat true }
    rfl rfl _ _ hc1]
  have hb1 := index_bounds hc1.1 hc1.2.1 hc1.2.2.1 hc1.2.2.2
  exact rd_set_self true hb1.1 (by rw [wf1.2.2.1]; exact hb1.2)

/-- Instance of the amended C18: the running state with the empty 3 x 3 grid
and timer 15, and a frame with the primary button held over the cell `(1, 1)`. -/
theorem frame_step_before_edit_witness :
    WellFormed dueApp.grid ∧
    (if clickInput.keySpace then !dueApp.animationOn else dueApp.animationOn) = true ∧
    (clickInput.keyR = false ∧ clickInput.keyC = false) ∧
    dueApp.timer ≥ ANIMATION_FRAME_DELAY ∧ clickInput.button0 = true ∧
    inRange dueApp.grid
      (mouseScreenPositionToWorldPosition (cameraPhase clickInput dueApp.camera)
        clickInput.mouse).1
      (mouseScreenPositionToWorldPosition (cameraPhase clickInput dueApp.camera)
        clickInput.mouse).2 ∧
    ∃ g1 g2 s1, updateGrid dueApp.grid = some g1 ∧
      setCell g1
        (mouseScreenPositionToWorldPosition (cameraPhase clickInput dueApp.camera)
          clickInput.mouse).1
        (mouseScreenPositionToWorldPosition (cameraPhase clickInput dueApp.camera)
          clickInput.mouse).2 true = some g2 ∧
      frame clickInput dueApp = some s1 ∧ s1.grid = g2 ∧ s1.updates = dueApp.updates + 1 ∧
      getCell s1.grid
        (mouseScreenPositionToWorldPosition (cameraPhase clickInput dueApp.camera)
          clickInput.mouse).1
        (mouseScreenPositionToWorldPosition (cameraPhase clickInput dueApp.camera)
          clickInput.mouse).2 = some true :=
  have hc : inRange dueApp.grid
      (mouseScreenPositionToWorldPosition (cameraPhase clickInput dueApp.camera)
        clickInput.mouse).1
      (mouseScreenPositionToWorldPosition (cameraPhase clickInput dueApp.camera)
        clickInput.mouse).2 := by
    rw [clickInput_cell]
    decide
  ⟨wellFormed_gridOf _ _ _, rfl, ⟨rfl, rfl⟩, by decide, rfl, hc,
    frame_step_before_edit dueApp clickInput (wellFormed_gridOf _ _ _) rfl ⟨rfl, rfl⟩
      (by decide) rfl hc⟩

end Life
